import Mathlib

/-!
Verification of the libfluid hybrid particle/grid fluid simulator core
(`src/simulation.cpp`) against its natural-language specification.

The C++ code is shallowly embedded: `double` values are modelled as exact
rationals (`ℚ`), `std::size_t` values as `ℕ`, 3-vectors as records, the dense
3D cell grid and the space-hash bucket table as lists indexed by the row-major
raw index `x + size.x * (y + size.y * z)`.  Fallible or I/O behaviour
(diagnostic printing) is dropped; everything else follows the source
line by line.  The pressure solver's implementation file is not part of the
sources; it is modelled from the specification (section 4.5) and marked as
such below.
-/

set_option maxRecDepth 4000000

namespace Fluid

/-- `vec3d`: a 3-vector of doubles, modelled with exact rationals. -/
structure Vec3 where
  x : ℚ
  y : ℚ
  z : ℚ
deriving DecidableEq

/-- `vec3s`: a 3-vector of `std::size_t` components. -/
structure Vec3s where
  x : ℕ
  y : ℕ
  z : ℕ
deriving DecidableEq

namespace Vec3

/-- Componentwise addition (`vec3d::operator+`). -/
def add (a b : Vec3) : Vec3 := ⟨a.x + b.x, a.y + b.y, a.z + b.z⟩

instance : Add Vec3 := ⟨add⟩

/-- Componentwise subtraction (`vec3d::operator-`). -/
def sub (a b : Vec3) : Vec3 := ⟨a.x - b.x, a.y - b.y, a.z - b.z⟩

instance : Sub Vec3 := ⟨sub⟩

/-- Vector times scalar (`vec3d::operator*`). -/
def scale (a : Vec3) (k : ℚ) : Vec3 := ⟨a.x * k, a.y * k, a.z * k⟩

instance : HMul Vec3 ℚ Vec3 := ⟨scale⟩

/-- Vector divided by scalar (`vec3d::operator/`). -/
def divs (a : Vec3) (k : ℚ) : Vec3 := ⟨a.x / k, a.y / k, a.z / k⟩

instance : HDiv Vec3 ℚ Vec3 := ⟨divs⟩

/-- `vec_ops::memberwise::mul`: componentwise product. -/
def memberwiseMul (a b : Vec3) : Vec3 := ⟨a.x * b.x, a.y * b.y, a.z * b.z⟩

/-- `vec_ops::dot`. -/
def dot (a b : Vec3) : ℚ := a.x * b.x + a.y * b.y + a.z * b.z

/-- `vec3d::squared_length`. -/
def squared_length (a : Vec3) : ℚ := dot a a

/-- The `vec3d(vec3s)` conversion constructor. -/
def ofVec3s (i : Vec3s) : Vec3 := ⟨(i.x : ℚ), (i.y : ℚ), (i.z : ℚ)⟩

end Vec3

/-- `std::clamp<double>`: `lo` if `v < lo`, `hi` if `hi < v`, else `v`. -/
def clampQ (v lo hi : ℚ) : ℚ := if v < lo then lo else if hi < v then hi else v

/-- Modelled from the spec: the `lerp` helper (declared in the math headers,
which are not among the sources): linear interpolation `a + (b - a) * t`. -/
def lerp (a b t : ℚ) : ℚ := a + (b - a) * t

/-- Componentwise `std::clamp` applied through `vec_ops::apply_to`. -/
def clampVec (v lo hi : Vec3) : Vec3 :=
  ⟨clampQ v.x lo.x hi.x, clampQ v.y lo.y hi.y, clampQ v.z lo.z hi.z⟩

/-- Componentwise `lerp` applied through `vec_ops::apply`. -/
def lerpVec (a b t : Vec3) : Vec3 :=
  ⟨lerp a.x b.x t.x, lerp a.y b.y t.y, lerp a.z b.z t.z⟩

instance : HMul ℚ Vec3 Vec3 := ⟨fun k v => Vec3.scale v k⟩

/-- `grid3::get_size().x * ... `: the number of cells of a grid of this size. -/
def Vec3s.volume (s : Vec3s) : ℕ := s.x * s.y * s.z

/-- `grid3::index_to_raw`: row-major raw index of cell `i` in a grid of size
`size` (`x` fastest, matching the contiguous (x,y,z) storage). -/
def encodeIdx (size i : Vec3s) : ℕ := i.x + size.x * (i.y + size.y * i.z)

/-- Inverse of `encodeIdx` on valid indices. -/
def decodeIdx (size : Vec3s) (raw : ℕ) : Vec3s :=
  ⟨raw % size.x, raw / size.x % size.y, raw / (size.x * size.y)⟩

/-- Componentwise bounds check of a cell index against the grid size. -/
def inGrid (size i : Vec3s) : Prop := i.x < size.x ∧ i.y < size.y ∧ i.z < size.z

instance (size i : Vec3s) : Decidable (inGrid size i) := by
  unfold inGrid; infer_instance

/-- `fluid_grid::cell::type`. -/
inductive CellType where
  | air : CellType
  | fluid : CellType
  | solid : CellType
deriving DecidableEq

/-- `fluid_grid::cell`: a cell-type tag and the velocities stored on the three
positive faces of the cell. -/
structure Cell where
  cell_type : CellType
  velocities_posface : Vec3
deriving DecidableEq

instance : Inhabited Cell := ⟨⟨CellType.air, ⟨0, 0, 0⟩⟩⟩

/-- `fluid_grid`: a dense 3D array of cells, stored row-major. -/
structure FluidGrid where
  size : Vec3s
  cells : List Cell
deriving DecidableEq

/-- Well-formedness: storage length matches the size. -/
def FluidGrid.wf (g : FluidGrid) : Prop := g.cells.length = g.size.volume

/-- `grid3::operator()`: read the cell at index `i`. -/
def FluidGrid.get (g : FluidGrid) (i : Vec3s) : Cell :=
  g.cells.getD (encodeIdx g.size i) default

/-- A sweep writing every cell in place: models the triple `for` loops over
`z`, `y`, `x` that rewrite each cell from the pre-sweep grid (each loop body
below reads only the pre-sweep grid and its own cell, as in the source). -/
def FluidGrid.mapCells (g : FluidGrid) (f : Vec3s → Cell → Cell) : FluidGrid :=
  { g with
    cells := (List.range g.cells.length).map
        (fun raw => f (decodeIdx g.size raw) (g.cells.getD raw default)) }

/-- A fresh all-air, zero-velocity grid (`fluid_grid(sz)`). -/
def FluidGrid.fresh (size : Vec3s) : FluidGrid :=
  { size := size, cells := List.replicate size.volume default }

/-- `particle`: position, velocity, owning cell, and the APIC affine rows. -/
structure Particle where
  position : Vec3
  velocity : Vec3
  grid_index : Vec3s
  cx : Vec3
  cy : Vec3
  cz : Vec3
deriving DecidableEq

instance : Inhabited Particle :=
  ⟨⟨⟨0, 0, 0⟩, ⟨0, 0, 0⟩, ⟨0, 0, 0⟩, ⟨0, 0, 0⟩, ⟨0, 0, 0⟩, ⟨0, 0, 0⟩⟩⟩

/-- `space_hashing`: one bucket of particle indices per grid cell (the design
resolves the hash to indices into the particle array), stored row-major. -/
structure SpaceHash where
  size : Vec3s
  table : List (List ℕ)
deriving DecidableEq

/-- `simulation::method`. -/
inductive Method where
  | pic : Method
  | flip_blend : Method
  | apic : Method
deriving DecidableEq

/-- The simulation state: the grids, particle store, spatial hash, and the
mutable configuration members of `simulation` (`gravity` is the configurable
member the Maya plugin assigns through `sim.gravity = ...`; `density`, `tol`
and `max_iterations` drive the pressure solver). -/
structure SimState where
  grid : FluidGrid
  old_grid : FluidGrid
  particles : List Particle
  space_hash : SpaceHash
  cell_size : ℚ
  grid_offset : Vec3
  gravity : Vec3
  cfl_number : ℚ
  blending_factor : ℚ
  boundary_skin_width : ℚ
  simulation_method : Method
  density : ℚ
  max_iterations : ℕ
deriving DecidableEq

/-- `simulation::_kernel`: the trilinear tent kernel; the argument is divided
componentwise by `cell_size` first. -/
def kernel (cell_size : ℚ) (p : Vec3) : ℚ :=
  let q := p / cell_size
  max 0 (1 - |q.x|) * max 0 (1 - |q.y|) * max 0 (1 - |q.z|)

/-- `simulation::_advect_particles`: move every particle by `velocity * dt`,
then clamp each coordinate into
`[grid_offset + skin, cell_size * size + grid_offset - skin]`. -/
def advectParticles (s : SimState) (dt : ℚ) : SimState :=
  let skin_width : Vec3 :=
    ⟨s.boundary_skin_width, s.boundary_skin_width, s.boundary_skin_width⟩
  let min_corner := s.grid_offset + skin_width
  let max_corner := s.cell_size * Vec3.ofVec3s s.grid.size + s.grid_offset - skin_width
  { s with particles := s.particles.map (fun p =>
      { p with position := clampVec (p.position + p.velocity * dt) min_corner max_corner }) }

/-- The owning-cell computation in `simulation::hash_particles`:
`min(size_t(max((pos - offset)/h, 0)), size - 1)` per component (the
`size_t` cast truncates the non-negative value, i.e. takes its floor; the
`size - 1` is `std::size_t` arithmetic, so grids of size zero wrap in C++
where ℕ saturates — theorems below assume non-zero sizes). -/
def computeGridIndex (cell_size : ℚ) (grid_offset : Vec3) (size : Vec3s) (position : Vec3) :
    Vec3s :=
  let gp := (position - grid_offset) / cell_size
  ⟨min (Rat.floor (max gp.x 0)).toNat (size.x - 1),
   min (Rat.floor (max gp.y 0)).toNat (size.y - 1),
   min (Rat.floor (max gp.z 0)).toNat (size.z - 1)⟩

/-- The insertion loop of `hash_particles`: append each particle index to the
bucket at its (already encoded) cell, in particle order.  `List.set` on an
out-of-range bucket is a no-op; all encoded cells are in range for non-zero
grid sizes. -/
def insertAll : List (List ℕ) → List (ℕ × ℕ) → List (List ℕ)
  | tbl, [] => tbl
  | tbl, (i, b) :: rest => insertAll (tbl.set b (tbl.getD b [] ++ [i])) rest

/-- `simulation::hash_particles`: clear the hash, recompute every particle's
`grid_index` from its position, and insert each particle (by index) into the
bucket of its cell. -/
def hashParticles (s : SimState) : SimState :=
  let ps := s.particles.map (fun p =>
    { p with grid_index := computeGridIndex s.cell_size s.grid_offset s.grid.size p.position })
  let pairs := ps.enum.map (fun ip => (ip.1, encodeIdx s.space_hash.size ip.2.grid_index))
  { s with
    particles := ps,
    space_hash := { s.space_hash with
      table := insertAll (List.replicate s.space_hash.size.volume []) pairs } }

/-- Modelled from the spec: `space_hashing::for_all_nearby_objects` (the data
structure's header is not among the sources) enumerates the buckets of the
inclusive cell range `[center - back, center + fwd]` clamped to the grid. -/
def nearbyCells (size center back fwd : Vec3s) : List Vec3s :=
  let lox := center.x - back.x
  let hix := min (center.x + fwd.x) (size.x - 1)
  let loy := center.y - back.y
  let hiy := min (center.y + fwd.y) (size.y - 1)
  let loz := center.z - back.z
  let hiz := min (center.z + fwd.z) (size.z - 1)
  (List.range' loz (hiz + 1 - loz)).flatMap (fun z =>
    (List.range' loy (hiy + 1 - loy)).flatMap (fun y =>
      (List.range' lox (hix + 1 - lox)).map (fun x => (⟨x, y, z⟩ : Vec3s))))

/-- The particle indices delivered by `for_all_nearby_objects`, in bucket
order. -/
def nearbyIndices (h : SpaceHash) (center back fwd : Vec3s) : List ℕ :=
  (nearbyCells h.size center back fwd).flatMap
    (fun c => h.table.getD (encodeIdx h.size c) [])

/-- The world-space face centers used by the particle-to-grid sweeps for cell
`(x, y, z)`: `xpos/ypos/zpos` are the cell-center coordinates and
`xpos_face` etc. add another half cell along the face axis. -/
def faceCenters (cell_size : ℚ) (grid_offset : Vec3) (i : Vec3s) : Vec3 × Vec3 × Vec3 :=
  let half_cell := 1/2 * cell_size
  let xpos := grid_offset.x + half_cell + cell_size * (i.x : ℚ)
  let ypos := grid_offset.y + half_cell + cell_size * (i.y : ℚ)
  let zpos := grid_offset.z + half_cell + cell_size * (i.z : ℚ)
  (⟨xpos + half_cell, ypos, zpos⟩, ⟨xpos, ypos + half_cell, zpos⟩, ⟨xpos, ypos, zpos + half_cell⟩)

/-- The PIC accumulation over the nearby particles of one cell: sums of
kernel-weighted velocities and of kernel weights for the three faces. -/
def picAccum (s : SimState) (xface yface zface : Vec3) (idxs : List ℕ) : Vec3 × Vec3 :=
  idxs.foldl
    (fun acc i =>
      let p := s.particles.getD i default
      let weights : Vec3 :=
        ⟨kernel s.cell_size (p.position - xface),
         kernel s.cell_size (p.position - yface),
         kernel s.cell_size (p.position - zface)⟩
      (acc.1 + Vec3.memberwiseMul weights p.velocity, acc.2 + weights))
    (⟨0, 0, 0⟩, ⟨0, 0, 0⟩)

/-- The APIC accumulation: like `picAccum` but each particle contributes
`velocity + (cx·(f - pos), cy·(f - pos), cz·(f - pos))` at face `f`. -/
def apicAccum (s : SimState) (xface yface zface : Vec3) (idxs : List ℕ) : Vec3 × Vec3 :=
  idxs.foldl
    (fun acc i =>
      let p := s.particles.getD i default
      let weights : Vec3 :=
        ⟨kernel s.cell_size (p.position - xface),
         kernel s.cell_size (p.position - yface),
         kernel s.cell_size (p.position - zface)⟩
      let affine : Vec3 :=
        ⟨Vec3.dot p.cx (xface - p.position),
         Vec3.dot p.cy (yface - p.position),
         Vec3.dot p.cz (zface - p.position)⟩
      (acc.1 + Vec3.memberwiseMul weights (p.velocity + affine), acc.2 + weights))
    (⟨0, 0, 0⟩, ⟨0, 0, 0⟩)

/-- The per-face write rule of the particle-to-grid sweeps:
`weight > 1e-6 ? vel / weight : 0.0`. -/
def faceVelocityRule (vel weight : ℚ) : ℚ := if weight > 1/1000000 then vel / weight else 0

/-- Whether the bucket of cell `i` is empty (`get_objects_at(...).empty()`). -/
def bucketEmpty (h : SpaceHash) (i : Vec3s) : Bool :=
  (h.table.getD (encodeIdx h.size i) []).isEmpty

/-- `simulation::_transfer_to_grid_pic`: for every non-solid cell, average the
nearby particles' velocities onto the three positive faces with the tent
kernel, and retag the cell `fluid` if its bucket is non-empty, else `air`. -/
def transferToGridPic (s : SimState) : SimState :=
  { s with grid := s.grid.mapCells (fun i cell =>
      if cell.cell_type = CellType.solid then cell else
      let fc := faceCenters s.cell_size s.grid_offset i
      let acc := picAccum s fc.1 fc.2.1 fc.2.2 (nearbyIndices s.space_hash i ⟨1, 1, 1⟩ ⟨1, 1, 1⟩)
      { cell_type := if bucketEmpty s.space_hash i then CellType.air else CellType.fluid,
        velocities_posface :=
          ⟨faceVelocityRule acc.1.x acc.2.x,
           faceVelocityRule acc.1.y acc.2.y,
           faceVelocityRule acc.1.z acc.2.z⟩ }) }

/-- `simulation::_transfer_to_grid_apic`: as the PIC sweep but sourcing the
affine-augmented particle velocities. -/
def transferToGridApic (s : SimState) : SimState :=
  { s with grid := s.grid.mapCells (fun i cell =>
      if cell.cell_type = CellType.solid then cell else
      let fc := faceCenters s.cell_size s.grid_offset i
      let acc := apicAccum s fc.1 fc.2.1 fc.2.2 (nearbyIndices s.space_hash i ⟨1, 1, 1⟩ ⟨1, 1, 1⟩)
      { cell_type := if bucketEmpty s.space_hash i then CellType.air else CellType.fluid,
        velocities_posface :=
          ⟨faceVelocityRule acc.1.x acc.2.x,
           faceVelocityRule acc.1.y acc.2.y,
           faceVelocityRule acc.1.z acc.2.z⟩ }) }

/-- `simulation::_get_negative_face_velocities`: the velocities on the three
negative faces of cell `id`, i.e. the positive faces of the preceding
neighbors, or 0 on the grid boundary. -/
def getNegativeFaceVelocities (g : FluidGrid) (id : Vec3s) : Vec3 :=
  ⟨if 0 < id.x then (g.get ⟨id.x - 1, id.y, id.z⟩).velocities_posface.x else 0,
   if 0 < id.y then (g.get ⟨id.x, id.y - 1, id.z⟩).velocities_posface.y else 0,
   if 0 < id.z then (g.get ⟨id.x, id.y, id.z - 1⟩).velocities_posface.z else 0⟩

/-- `simulation::_remove_boundary_velocities`: zero the face velocities on the
outermost +x, +y and +z faces of the grid. -/
def removeBoundaryVelocities (g : FluidGrid) : FluidGrid :=
  g.mapCells (fun i cell =>
    { cell with velocities_posface :=
        ⟨if i.x = g.size.x - 1 then 0 else cell.velocities_posface.x,
         if i.y = g.size.y - 1 then 0 else cell.velocities_posface.y,
         if i.z = g.size.z - 1 then 0 else cell.velocities_posface.z⟩ })

/-- `simulation::_transfer_from_grid_pic`: each particle reads the tri-lerp of
the six face velocities around its owning cell. -/
def transferFromGridPic (s : SimState) : SimState :=
  { s with particles := s.particles.map (fun p =>
      let cell := s.grid.get p.grid_index
      let t := (p.position - s.grid_offset) / s.cell_size - Vec3.ofVec3s p.grid_index
      { p with velocity :=
          lerpVec (getNegativeFaceVelocities s.grid p.grid_index) cell.velocities_posface t }) }

/-- `simulation::_transfer_from_grid_flip`: blend the PIC interpolation from
the current grid with the particle's velocity change relative to the
`old_grid` interpolation. -/
def transferFromGridFlip (s : SimState) (blend : ℚ) : SimState :=
  { s with particles := s.particles.map (fun p =>
      let t := (p.position - s.grid_offset) / s.cell_size - Vec3.ofVec3s p.grid_index
      let old_velocity :=
        lerpVec (getNegativeFaceVelocities s.old_grid p.grid_index)
          (s.old_grid.get p.grid_index).velocities_posface t
      let new_velocity :=
        lerpVec (getNegativeFaceVelocities s.grid p.grid_index)
          (s.grid.get p.grid_index).velocities_posface t
      { p with velocity := new_velocity + (p.velocity - old_velocity) * blend }) }

/-- `simulation::_transfer_to_grid_flip`: the FLIP "transfer to grid" phase as
written in the source: it performs the PIC grid-to-particle transfer (from the
grid as it stands, i.e. the previous substep's post-projection grid) and then
snapshots the current grid as `old_grid` with boundary velocities zeroed.  No
particle-to-grid transfer happens here. -/
def transferToGridFlip (s : SimState) : SimState :=
  let s1 := transferFromGridPic s
  { s1 with old_grid := removeBoundaryVelocities s1.grid }

/-- The file-local `_grad` helper: gradient of the trilinear interpolant of an
8-point stencil (zyx corner order) at fractions `(fx, fy, fz)`. -/
def gradComp (v000 v001 v010 v011 v100 v101 v110 v111 fx fy fz : ℚ) : Vec3 :=
  let f000 : Vec3 := ⟨-(1 - fy) * (1 - fz), -(1 - fx) * (1 - fz), -(1 - fx) * (1 - fy)⟩
  let f001 : Vec3 := ⟨(1 - fy) * (1 - fz), -fx * (1 - fz), -fx * (1 - fy)⟩
  let f010 : Vec3 := ⟨-fy * (1 - fz), (1 - fx) * (1 - fz), -(1 - fx) * fy⟩
  let f011 : Vec3 := ⟨fy * (1 - fz), fx * (1 - fz), -fx * fy⟩
  let f100 : Vec3 := ⟨-(1 - fy) * fz, -(1 - fx) * fz, (1 - fx) * (1 - fy)⟩
  let f101 : Vec3 := ⟨(1 - fy) * fz, -fx * fz, fx * (1 - fy)⟩
  let f110 : Vec3 := ⟨-fy * fz, (1 - fx) * fz, (1 - fx) * fy⟩
  let f111 : Vec3 := ⟨fy * fz, fx * fz, fx * fy⟩
  f000 * v000 + f001 * v001 + f010 * v010 + f011 * v011 +
    f100 * v100 + f101 * v101 + f110 * v110 + f111 * v111

/-- The file-local `_clamp` helper: clamp `val` into `[min, max)` (the upper
end maps to `max`), also reporting whether clamping occurred. -/
def clampIdx (val lo hi : ℕ) : ℕ × Bool :=
  if val < lo then (lo, true) else if val ≥ hi then (hi, true) else (val, false)

/-- `simulation::_transfer_from_grid_apic`: the PIC velocity read plus the
recomputation of the affine rows `cx, cy, cz` from the 3×3×3 face-velocity
block around the owning cell. -/
def transferFromGridApic (s : SimState) : SimState :=
  { s with particles := s.particles.map (fun p =>
      let cell := s.grid.get p.grid_index
      let t := (p.position - s.grid_offset) / s.cell_size - Vec3.ofVec3s p.grid_index
      let velocity :=
        lerpVec (getNegativeFaceVelocities s.grid p.grid_index) cell.velocities_posface t
      let vels : ℕ → ℕ → ℕ → Vec3 := fun dz dy dx =>
        let cz := clampIdx (p.grid_index.z + dz) 1 s.grid.size.z
        let cy := clampIdx (p.grid_index.y + dy) 1 s.grid.size.y
        let cx := clampIdx (p.grid_index.x + dx) 1 s.grid.size.x
        let vel := (s.grid.get ⟨cx.1 - 1, cy.1 - 1, cz.1 - 1⟩).velocities_posface
        ⟨if cx.2 then 0 else vel.x, if cy.2 then 0 else vel.y, if cz.2 then 0 else vel.z⟩
      let tmid0 : Vec3 := t - (⟨1/2, 1/2, 1/2⟩ : Vec3)
      let dx := if tmid0.x < 0 then 0 else 1
      let dy := if tmid0.y < 0 then 0 else 1
      let dz := if tmid0.z < 0 then 0 else 1
      let tmid : Vec3 :=
        ⟨if tmid0.x < 0 then tmid0.x + 1 else tmid0.x,
         if tmid0.y < 0 then tmid0.y + 1 else tmid0.y,
         if tmid0.z < 0 then tmid0.z + 1 else tmid0.z⟩
      let v000 : Vec3 := ⟨(vels dz dy 0).x, (vels dz 0 dx).y, (vels 0 dy dx).z⟩
      let v001 : Vec3 := ⟨(vels dz dy 1).x, (vels dz 0 (dx + 1)).y, (vels 0 dy (dx + 1)).z⟩
      let v010 : Vec3 := ⟨(vels dz (dy + 1) 0).x, (vels dz 1 dx).y, (vels 0 (dy + 1) dx).z⟩
      let v011 : Vec3 :=
        ⟨(vels dz (dy + 1) 1).x, (vels dz 1 (dx + 1)).y, (vels 0 (dy + 1) (dx + 1)).z⟩
      let v100 : Vec3 := ⟨(vels (dz + 1) dy 0).x, (vels (dz + 1) 0 dx).y, (vels 1 dy dx).z⟩
      let v101 : Vec3 :=
        ⟨(vels (dz + 1) dy 1).x, (vels (dz + 1) 0 (dx + 1)).y, (vels 1 dy (dx + 1)).z⟩
      let v110 : Vec3 :=
        ⟨(vels (dz + 1) (dy + 1) 0).x, (vels (dz + 1) 1 dx).y, (vels 1 (dy + 1) dx).z⟩
      let v111 : Vec3 :=
        ⟨(vels (dz + 1) (dy + 1) 1).x, (vels (dz + 1) 1 (dx + 1)).y,
         (vels 1 (dy + 1) (dx + 1)).z⟩
      { p with
        velocity := velocity,
        cx := gradComp v000.x v001.x v010.x v011.x v100.x v101.x v110.x v111.x
            t.x tmid.y tmid.z / s.cell_size,
        cy := gradComp v000.y v001.y v010.y v011.y v100.y v101.y v110.y v111.y
            tmid.x t.y tmid.z / s.cell_size,
        cz := gradComp v000.z v001.z v010.z v011.z v100.z v101.z v110.z v111.z
            tmid.x tmid.y t.z / s.cell_size }) }

/-- `simulation::_transfer_to_grid`: dispatch on the transfer method. -/
def transferToGrid (s : SimState) : SimState :=
  match s.simulation_method with
  | Method.pic => transferToGridPic s
  | Method.flip_blend => transferToGridFlip s
  | Method.apic => transferToGridApic s

/-- `simulation::_transfer_from_grid`: dispatch on the transfer method; the
FLIP branch passes the configured `blending_factor`. -/
def transferFromGrid (s : SimState) : SimState :=
  match s.simulation_method with
  | Method.pic => transferFromGridPic s
  | Method.flip_blend => transferFromGridFlip s s.blending_factor
  | Method.apic => transferFromGridApic s

/-- The external-force loop of `simulation::time_step`: add the hardcoded
`vec3d(0.0, -981.0, 0.0) * dt` to the stored face velocities of every cell
(the configured `gravity` member is not consulted, and solid cells are not
skipped). -/
def addGravity (s : SimState) (dt : ℚ) : SimState :=
  { s with grid := s.grid.mapCells (fun _ cell =>
      { cell with velocities_posface :=
          cell.velocities_posface + (⟨0, -981, 0⟩ : Vec3) * dt }) }

/-- Modelled from the spec: `space_hashing::get_sorted_occupied_cells` — the
cells with non-empty buckets, in natural row-major order. -/
def sortedOccupiedCells (h : SpaceHash) : List Vec3s :=
  (List.range h.size.volume).filterMap (fun raw =>
    if (h.table.getD raw []).isEmpty then none else some (decodeIdx h.size raw))

/-- The six face neighbors of a cell that lie inside the grid. -/
def neighborCells (size c : Vec3s) : List Vec3s :=
  (if 0 < c.x then [(⟨c.x - 1, c.y, c.z⟩ : Vec3s)] else []) ++
  (if c.x + 1 < size.x then [(⟨c.x + 1, c.y, c.z⟩ : Vec3s)] else []) ++
  (if 0 < c.y then [(⟨c.x, c.y - 1, c.z⟩ : Vec3s)] else []) ++
  (if c.y + 1 < size.y then [(⟨c.x, c.y + 1, c.z⟩ : Vec3s)] else []) ++
  (if 0 < c.z then [(⟨c.x, c.y, c.z - 1⟩ : Vec3s)] else []) ++
  (if c.z + 1 < size.z then [(⟨c.x, c.y, c.z + 1⟩ : Vec3s)] else [])

/-- Ordinal of a fluid cell in the solver's cell list. -/
def ordOf (fluidCells : List Vec3s) (c : Vec3s) : ℕ :=
  fluidCells.findIdx (fun d => decide (d = c))

/-- Modelled from the spec (§4.5; the pressure-solver sources are not under
`src/`): one row of the variable-coefficient Poisson matrix applied to a
vector: `dt/(rho h^2)` times (number of non-solid in-grid face neighbors) on
the diagonal, minus `dt/(rho h^2)` towards each neighbor that is itself in
the fluid set. -/
def matVec (s : SimState) (dt : ℚ) (fluidCells : List Vec3s) (v : List ℚ) : List ℚ :=
  let coef := dt / (s.density * s.cell_size ^ 2)
  fluidCells.map (fun c =>
    let ns := neighborCells s.grid.size c
    coef * ((ns.filter (fun n => decide ((s.grid.get n).cell_type ≠ CellType.solid))).length : ℚ)
        * v.getD (ordOf fluidCells c) 0
      - coef * ((ns.filter (fun n => decide (n ∈ fluidCells))).map
          (fun n => v.getD (ordOf fluidCells n) 0)).sum)

/-- Modelled from the spec: the negative discrete divergence right-hand
side `-(upx - unx + upy - uny + upz - unz)/h`, reading 0 at grid boundaries
and across solid neighbors. -/
def divergenceRHS (s : SimState) (c : Vec3s) : ℚ :=
  let g := s.grid
  let upx := if c.x + 1 < g.size.x then
      (if (g.get ⟨c.x + 1, c.y, c.z⟩).cell_type = CellType.solid then 0
       else (g.get c).velocities_posface.x) else 0
  let unx := if 0 < c.x then
      (if (g.get ⟨c.x - 1, c.y, c.z⟩).cell_type = CellType.solid then 0
       else (g.get ⟨c.x - 1, c.y, c.z⟩).velocities_posface.x) else 0
  let upy := if c.y + 1 < g.size.y then
      (if (g.get ⟨c.x, c.y + 1, c.z⟩).cell_type = CellType.solid then 0
       else (g.get c).velocities_posface.y) else 0
  let uny := if 0 < c.y then
      (if (g.get ⟨c.x, c.y - 1, c.z⟩).cell_type = CellType.solid then 0
       else (g.get ⟨c.x, c.y - 1, c.z⟩).velocities_posface.y) else 0
  let upz := if c.z + 1 < g.size.z then
      (if (g.get ⟨c.x, c.y, c.z + 1⟩).cell_type = CellType.solid then 0
       else (g.get c).velocities_posface.z) else 0
  let unz := if 0 < c.z then
      (if (g.get ⟨c.x, c.y, c.z - 1⟩).cell_type = CellType.solid then 0
       else (g.get ⟨c.x, c.y, c.z - 1⟩).velocities_posface.z) else 0
  Neg.neg (upx - unx + upy - uny + upz - unz) / s.cell_size

/-- Infinity norm of a coefficient vector. -/
def infNorm (v : List ℚ) : ℚ := v.foldl (fun m q => max m |q|) 0

/-- Dot product of coefficient vectors. -/
def dotL (a b : List ℚ) : ℚ := (List.zipWith (fun ai bi => ai * bi) a b).sum

/-- `k * a + b` on coefficient vectors. -/
def axpy (k : ℚ) (a b : List ℚ) : List ℚ := List.zipWith (fun ai bi => k * ai + bi) a b

/-- Modelled from the spec: one conjugate-gradient iteration sequence with
convergence test `‖r‖∞ ≤ tol`, bounded by the remaining iteration budget. -/
def cgLoop (A : List ℚ → List ℚ) (tol : ℚ) :
    ℕ → List ℚ → List ℚ → List ℚ → ℚ → ℕ → List ℚ × ℚ × ℕ
  | 0, x, r, _, _, iters => (x, infNorm r, iters)
  | fuel + 1, x, r, d, rr, iters =>
      let Ad := A d
      let alpha := rr / dotL d Ad
      let x1 := axpy alpha d x
      let r1 := axpy (-alpha) Ad r
      if infNorm r1 ≤ tol then (x1, infNorm r1, iters + 1)
      else
        let rr1 := dotL r1 r1
        cgLoop A tol fuel x1 r1 (axpy (rr1 / rr) d r1) rr1 (iters + 1)

/-- Modelled from the spec: `pressure_solver::solve` — build the right-hand
side over the given fluid cells, set `tol = 1e-6·‖b‖∞ + 1e-12`, and run
conjugate gradient from the zero vector for at most `max_iterations`
iterations; returns the pressures, the final residual norm and the iteration
count. -/
def pressureSolve (s : SimState) (fluidCells : List Vec3s) (dt : ℚ) : List ℚ × ℚ × ℕ :=
  let b := fluidCells.map (divergenceRHS s)
  let tol := 1/1000000 * infNorm b + 1/1000000000000
  let x0 : List ℚ := List.replicate fluidCells.length 0
  if infNorm b ≤ tol then (x0, infNorm b, 0)
  else cgLoop (matVec s dt fluidCells) tol s.max_iterations x0 b b (dotL b b) 0

/-- Modelled from the spec: `pressure_solver::apply_pressure` — subtract
`dt/(ρ·h)·(p₊ - p₋)` across every face between two non-solid in-grid cells
(`p = 0` for air cells), and zero the faces on the grid boundary or touching
a solid cell. -/
def applyPressure (s : SimState) (fluidCells : List Vec3s) (p : List ℚ) (dt : ℚ) : SimState :=
  let coef := dt / (s.density * s.cell_size)
  let pAt : Vec3s → ℚ := fun c =>
    if c ∈ fluidCells then p.getD (ordOf fluidCells c) 0 else 0
  { s with grid := s.grid.mapCells (fun c cell =>
      let solidHere := (s.grid.get c).cell_type = CellType.solid
      { cell with velocities_posface :=
          ⟨if c.x + 1 < s.grid.size.x ∧ ¬solidHere ∧
              (s.grid.get ⟨c.x + 1, c.y, c.z⟩).cell_type ≠ CellType.solid then
            cell.velocities_posface.x - coef * (pAt ⟨c.x + 1, c.y, c.z⟩ - pAt c) else 0,
           if c.y + 1 < s.grid.size.y ∧ ¬solidHere ∧
              (s.grid.get ⟨c.x, c.y + 1, c.z⟩).cell_type ≠ CellType.solid then
            cell.velocities_posface.y - coef * (pAt ⟨c.x, c.y + 1, c.z⟩ - pAt c) else 0,
           if c.z + 1 < s.grid.size.z ∧ ¬solidHere ∧
              (s.grid.get ⟨c.x, c.y, c.z + 1⟩).cell_type ≠ CellType.solid then
            cell.velocities_posface.z - coef * (pAt ⟨c.x, c.y, c.z + 1⟩ - pAt c) else 0⟩ }) }

/-- The pressure block of `simulation::time_step`: collect the occupied cells,
solve, and apply the resulting pressures (diagnostic printing dropped). -/
def pressureStep (s : SimState) (dt : ℚ) : SimState :=
  let fluidCells := sortedOccupiedCells s.space_hash
  let solved := pressureSolve s fluidCells dt
  applyPressure s fluidCells solved.1 dt

/-- `simulation::time_step(double)`: advect, re-hash, transfer to grid, add
the external force, project pressure, transfer from grid. -/
def timeStep (s : SimState) (dt : ℚ) : SimState :=
  let s1 := advectParticles s dt
  let s2 := hashParticles s1
  let s3 := transferToGrid s2
  let s4 := addGravity s3 dt
  let s5 := pressureStep s4 dt
  transferFromGrid s5

/-- The loop body of `simulation::cfl`: the maximum squared particle
velocity. -/
def maxSquaredVelocity (s : SimState) : ℚ :=
  s.particles.foldl (fun m p => max m p.velocity.squared_length) 0

/-- Exact square root of a rational when one exists (used to model the one
`std::sqrt` in the CFL computation; the driver model below refuses states
whose maximum squared velocity is not a perfect rational square, since the
exact value of `cfl()` is irrational there). -/
def ratSqrt (q : ℚ) : ℚ := ((Nat.sqrt q.num.toNat : ℚ)) / ((Nat.sqrt q.den : ℚ))

/-- The comparison `cfl_number * cfl() > dt` from `simulation::update`, i.e.
`cfl_number * cell_size / sqrt(maxlen) > dt`.  For positive `cfl_number` and
`cell_size` this equals `maxlen = 0` (IEEE division by zero yields `+∞`,
which exceeds every finite `dt`) or `dt < 0` or
`(cfl_number * cell_size)² > dt² * maxlen`, which avoids the irrational
square root. -/
def tsExceeds (cfl_number cell_size maxlen dt : ℚ) : Prop :=
  maxlen = 0 ∨ dt < 0 ∨ (cfl_number * cell_size) ^ 2 > dt ^ 2 * maxlen

instance (c h m dt : ℚ) : Decidable (tsExceeds c h m dt) := by
  unfold tsExceeds; infer_instance

/-- The `while (true)` loop of `simulation::update`, with explicit fuel (the
C++ loop's termination is not guaranteed for all configurations).  Returns
the final state and the list of substep sizes taken, or `none` when the fuel
runs out or an intermediate `sqrt` is irrational. -/
def updateGo : ℕ → SimState → ℚ → Option (SimState × List ℚ)
  | 0, _, _ => none
  | fuel + 1, s, dt =>
      if tsExceeds s.cfl_number s.cell_size (maxSquaredVelocity s) dt then
        some (timeStep s dt, [dt])
      else if ratSqrt (maxSquaredVelocity s) ^ 2 = maxSquaredVelocity s then
        (updateGo fuel
            (timeStep s (s.cfl_number * (s.cell_size / ratSqrt (maxSquaredVelocity s))))
            (dt - s.cfl_number * (s.cell_size / ratSqrt (maxSquaredVelocity s)))).map
          (fun r => (r.1, s.cfl_number * (s.cell_size / ratSqrt (maxSquaredVelocity s)) :: r.2))
      else none

/-- `simulation::world_position_to_cell_index_unclamped`: componentwise
`size_t(max((pos - offset)/h, 0))` (truncation = floor of the non-negative
value). -/
def worldPositionToCellIndexUnclamped (s : SimState) (pos : Vec3) : Vec3s :=
  let q := (pos - s.grid_offset) / s.cell_size
  ⟨(Rat.floor (max q.x 0)).toNat, (Rat.floor (max q.y 0)).toNat, (Rat.floor (max q.z 0)).toNat⟩

/-- `simulation::world_position_to_cell_index`: the unclamped index clamped by
`std::min` against the grid size itself (not `size - 1`). -/
def worldPositionToCellIndex (s : SimState) (pos : Vec3) : Vec3s :=
  let u := worldPositionToCellIndexUnclamped s pos
  ⟨min u.x s.grid.size.x, min u.y s.grid.size.y, min u.z s.grid.size.z⟩

/-- A 3×3×3 unit-cell test configuration with a single particle of velocity
`(velx, 0, 0)` placed so that a `0.1`-advection with `velx = 1` lands it at
the exact grid center `(1.5, 1.5, 1.5)`; used as concrete input by several
theorems. -/
def testState (m : Method) (blend cfl velx : ℚ) : SimState :=
  { grid := FluidGrid.fresh ⟨3, 3, 3⟩,
    old_grid := FluidGrid.fresh ⟨3, 3, 3⟩,
    particles := [{ position := ⟨7/5, 3/2, 3/2⟩, velocity := ⟨velx, 0, 0⟩,
                    grid_index := ⟨0, 0, 0⟩, cx := ⟨0, 0, 0⟩, cy := ⟨0, 0, 0⟩,
                    cz := ⟨0, 0, 0⟩ }],
    space_hash := { size := ⟨3, 3, 3⟩, table := List.replicate 27 [] },
    cell_size := 1,
    grid_offset := ⟨0, 0, 0⟩,
    gravity := ⟨0, 0, 0⟩,
    cfl_number := cfl,
    blending_factor := blend,
    boundary_skin_width := 1/10,
    simulation_method := m,
    density := 1,
    max_iterations := 200 }

/-- A 2×2×2 unit-cell configuration around a single given particle, with an
optionally non-default cell list. -/
def smallState (m : Method) (p : Particle) (cells : List Cell) : SimState :=
  { grid := { size := ⟨2, 2, 2⟩, cells := cells },
    old_grid := FluidGrid.fresh ⟨2, 2, 2⟩,
    particles := [p],
    space_hash := { size := ⟨2, 2, 2⟩, table := List.replicate 8 [] },
    cell_size := 1,
    grid_offset := ⟨0, 0, 0⟩,
    gravity := ⟨0, 0, 0⟩,
    cfl_number := 3,
    blending_factor := 95/100,
    boundary_skin_width := 1/10,
    simulation_method := m,
    density := 1,
    max_iterations := 200 }

/-- A FLIP-method state whose single particle carries velocity `(1, 0, 0)`:
under the specified FLIP transfer-to-grid phase the particle-to-grid sweep
would write that velocity onto nearby faces. -/
def flipDemoState : SimState :=
  smallState Method.flip_blend
    { position := ⟨1/2, 1/2, 1/2⟩, velocity := ⟨1, 0, 0⟩, grid_index := ⟨0, 0, 0⟩,
      cx := ⟨0, 0, 0⟩, cy := ⟨0, 0, 0⟩, cz := ⟨0, 0, 0⟩ }
    (List.replicate 8 default)

/-- A state whose single particle sits so that the +x face of cell `(0,0,0)`
receives a total kernel weight of exactly `1e-6`. -/
def thresholdState : SimState :=
  smallState Method.pic
    { position := ⟨1/1000000, 1/2, 1/2⟩, velocity := ⟨1, 0, 0⟩, grid_index := ⟨0, 0, 0⟩,
      cx := ⟨0, 0, 0⟩, cy := ⟨0, 0, 0⟩, cz := ⟨0, 0, 0⟩ }
    (List.replicate 8 default)

/-- A state whose cell `(0,0,0)` is solid with zero face velocities. -/
def solidState : SimState :=
  smallState Method.pic
    { position := ⟨3/2, 3/2, 3/2⟩, velocity := ⟨0, 0, 0⟩, grid_index := ⟨1, 1, 1⟩,
      cx := ⟨0, 0, 0⟩, cy := ⟨0, 0, 0⟩, cz := ⟨0, 0, 0⟩ }
    ((List.replicate 8 (default : Cell)).set 0 ⟨CellType.solid, ⟨0, 0, 0⟩⟩)

/-- A three-particle state exercising both clamping directions of the hash:
one particle left of the grid, one beyond it, one inside. -/
def hashState : SimState :=
  { smallState Method.pic
      { position := ⟨-1, 1/2, 1/2⟩, velocity := ⟨0, 0, 0⟩, grid_index := ⟨0, 0, 0⟩,
        cx := ⟨0, 0, 0⟩, cy := ⟨0, 0, 0⟩, cz := ⟨0, 0, 0⟩ }
      (List.replicate 8 default) with
    particles :=
      [{ position := ⟨-1, 1/2, 1/2⟩, velocity := ⟨0, 0, 0⟩, grid_index := ⟨0, 0, 0⟩,
         cx := ⟨0, 0, 0⟩, cy := ⟨0, 0, 0⟩, cz := ⟨0, 0, 0⟩ },
       { position := ⟨5, 3/2, 1/2⟩, velocity := ⟨0, 0, 0⟩, grid_index := ⟨0, 0, 0⟩,
         cx := ⟨0, 0, 0⟩, cy := ⟨0, 0, 0⟩, cz := ⟨0, 0, 0⟩ },
       { position := ⟨3/2, 1/2, 3/2⟩, velocity := ⟨0, 0, 0⟩, grid_index := ⟨0, 0, 0⟩,
         cx := ⟨0, 0, 0⟩, cy := ⟨0, 0, 0⟩, cz := ⟨0, 0, 0⟩ }] }

/-- The owning-cell formula as the specification states it: componentwise
`clamp(floor((position - grid_offset)/cell_size), 0, size - 1)`, computed in
ℤ. -/
def specGridIndex (cell_size : ℚ) (grid_offset : Vec3) (size : Vec3s) (position : Vec3) :
    Vec3s :=
  let gp := (position - grid_offset) / cell_size
  ⟨(min (max (Rat.floor gp.x) 0) ((size.x : ℤ) - 1)).toNat,
   (min (max (Rat.floor gp.y) 0) ((size.y : ℤ) - 1)).toNat,
   (min (max (Rat.floor gp.z) 0) ((size.z : ℤ) - 1)).toNat⟩

/-- Claim side: the particles whose owning cell lies in the 3×3×3 block of
cells centered at `c` (clamped to the grid). -/
def specNearbyParticles (s : SimState) (c : Vec3s) : List Particle :=
  s.particles.filter
    (fun p => decide (p.grid_index ∈ nearbyCells s.grid.size c ⟨1, 1, 1⟩ ⟨1, 1, 1⟩))

/-- Claim side: `Σ K(p.pos - f_center)` over the particles in the block. -/
def specWeightSum (s : SimState) (c : Vec3s) (face : Vec3) : ℚ :=
  ((specNearbyParticles s c).map (fun p => kernel s.cell_size (p.position - face))).sum

/-- Claim side: `Σ K(p.pos - f_center) · v_p` over the particles in the
block, for one velocity component. -/
def specWeightedVelSum (s : SimState) (c : Vec3s) (face : Vec3) (comp : Particle → ℚ) : ℚ :=
  ((specNearbyParticles s c).map
    (fun p => kernel s.cell_size (p.position - face) * comp p)).sum

/-- The face rule exactly as the claim words it: 0 when the total weight is
strictly below `1e-6`, else the weighted average (so at exactly `1e-6` the
average applies). -/
def claimFaceRuleStrict (vel weight : ℚ) : ℚ :=
  if weight < 1/1000000 then 0 else vel / weight

/-! ## Indexing infrastructure -/

theorem Vec3.add_def (a b : Vec3) : a + b = ⟨a.x + b.x, a.y + b.y, a.z + b.z⟩ := rfl

theorem Vec3.sub_def (a b : Vec3) : a - b = ⟨a.x - b.x, a.y - b.y, a.z - b.z⟩ := rfl

theorem Vec3.smul_def (k : ℚ) (v : Vec3) : k * v = ⟨v.x * k, v.y * k, v.z * k⟩ := rfl

theorem Vec3.mulk_def (v : Vec3) (k : ℚ) : v * k = ⟨v.x * k, v.y * k, v.z * k⟩ := rfl

theorem Vec3.divk_def (v : Vec3) (k : ℚ) : v / k = ⟨v.x / k, v.y / k, v.z / k⟩ := rfl

theorem encodeIdx_lt (size i : Vec3s) (hi : inGrid size i) :
    encodeIdx size i < size.volume := by
  obtain ⟨hx, hy, hz⟩ := hi
  have h1 : i.y + size.y * i.z < size.y * size.z := by
    have h2 : i.y + size.y * i.z < size.y * (i.z + 1) := by
      rw [Nat.mul_succ]; omega
    exact lt_of_lt_of_le h2 (Nat.mul_le_mul_left size.y hz)
  have h3 : encodeIdx size i < size.x * (size.y * size.z) := by
    have h4 : encodeIdx size i < size.x * ((i.y + size.y * i.z) + 1) := by
      unfold encodeIdx; rw [Nat.mul_succ]; omega
    exact lt_of_lt_of_le h4 (Nat.mul_le_mul_left size.x h1)
  simpa [Vec3s.volume, Nat.mul_assoc] using h3

theorem decodeIdx_encodeIdx (size i : Vec3s) (hi : inGrid size i) :
    decodeIdx size (encodeIdx size i) = i := by
  obtain ⟨hx, hy, hz⟩ := hi
  unfold decodeIdx encodeIdx
  have ex : (i.x + size.x * (i.y + size.y * i.z)) % size.x = i.x := by
    rw [Nat.add_mul_mod_self_left, Nat.mod_eq_of_lt hx]
  have ed : (i.x + size.x * (i.y + size.y * i.z)) / size.x = i.y + size.y * i.z := by
    rw [Nat.add_mul_div_left _ _ (Nat.pos_of_ne_zero (by omega)), Nat.div_eq_of_lt hx,
      Nat.zero_add]
  have ey : (i.y + size.y * i.z) % size.y = i.y := by
    rw [Nat.add_mul_mod_self_left, Nat.mod_eq_of_lt hy]
  have ezsplit : i.x + size.x * (i.y + size.y * i.z) =
      (i.x + size.x * i.y) + (size.x * size.y) * i.z := by ring
  have hxy : i.x + size.x * i.y < size.x * size.y := by
    have h2 : i.x + size.x * i.y < size.x * (i.y + 1) := by rw [Nat.mul_succ]; omega
    exact lt_of_lt_of_le h2 (Nat.mul_le_mul_left size.x hy)
  have ez : (i.x + size.x * (i.y + size.y * i.z)) / (size.x * size.y) = i.z := by
    rw [ezsplit, Nat.add_mul_div_left _ _ (Nat.pos_of_ne_zero (by omega)),
      Nat.div_eq_of_lt hxy, Nat.zero_add]
  simp only [ex, ed, ey, ez]

theorem encodeIdx_inj (size : Vec3s) {i j : Vec3s} (hi : inGrid size i) (hj : inGrid size j)
    (h : encodeIdx size i = encodeIdx size j) : i = j := by
  have := decodeIdx_encodeIdx size i hi
  rw [h, decodeIdx_encodeIdx size j hj] at this
  exact this.symm

theorem FluidGrid.size_mapCells (g : FluidGrid) (f : Vec3s → Cell → Cell) :
    (g.mapCells f).size = g.size := rfl

theorem FluidGrid.length_mapCells (g : FluidGrid) (f : Vec3s → Cell → Cell) :
    (g.mapCells f).cells.length = g.cells.length := by
  simp [FluidGrid.mapCells]

theorem FluidGrid.get_mapCells (g : FluidGrid) (f : Vec3s → Cell → Cell) (i : Vec3s)
    (hwf : g.wf) (hi : inGrid g.size i) : (g.mapCells f).get i = f i (g.get i) := by
  have hlt : encodeIdx g.size i < g.cells.length := by
    rw [hwf]; exact encodeIdx_lt g.size i hi
  have hlen : encodeIdx g.size i < ((List.range g.cells.length).map
      (fun raw => f (decodeIdx g.size raw) (g.cells.getD raw default))).length := by
    simpa using hlt
  unfold FluidGrid.get FluidGrid.mapCells
  rw [List.getD_eq_getElem _ _ hlen, List.getElem_map, List.getElem_range,
    decodeIdx_encodeIdx g.size i hi]

/-! ## Claim C10: world_position_to_cell_index clamps one past the last cell -/

/-- C10: `world_position_to_cell_index` clamps each component of the computed
cell index only against the grid size itself (`std::min` with `get_size()`),
not `size - 1`: for every world position at or beyond the positive grid
corner along the x axis, the returned x component equals the grid size along
x, which is one past the last valid cell index `size.x - 1`. -/
theorem world_position_to_cell_index_clamps_to_size (s : SimState) (pos : Vec3)
    (hcs : 0 < s.cell_size)
    (hx : s.grid_offset.x + (s.grid.size.x : ℚ) * s.cell_size ≤ pos.x) :
    (worldPositionToCellIndex s pos).x = s.grid.size.x ∧
    s.grid.size.x ≤ (worldPositionToCellIndexUnclamped s pos).x := by
  have hq : (s.grid.size.x : ℚ) ≤ (pos.x - s.grid_offset.x) / s.cell_size := by
    rw [le_div_iff₀ hcs]
    linarith
  have hmax : (s.grid.size.x : ℚ) ≤ max ((pos - s.grid_offset).x / s.cell_size) 0 :=
    le_trans hq (le_max_left _ _)
  have hfl : (s.grid.size.x : ℤ) ≤ Rat.floor (max ((pos - s.grid_offset).x / s.cell_size) 0) :=
    Rat.le_floor.mpr (by exact_mod_cast hmax)
  have hnat : s.grid.size.x ≤
      (Rat.floor (max ((pos - s.grid_offset).x / s.cell_size) 0)).toNat := by
    omega
  have hu : s.grid.size.x ≤ (worldPositionToCellIndexUnclamped s pos).x := by
    simpa [worldPositionToCellIndexUnclamped, Vec3.divs, HDiv.hDiv] using hnat
  exact ⟨by simpa [worldPositionToCellIndex] using Nat.min_eq_right hu, hu⟩

/-- Witness for C10 at a concrete state: position `(100, 0, 0)` on the 3³ grid
maps to x-index `3`, the grid size itself. -/
theorem world_position_to_cell_index_clamps_to_size_witness :
    (worldPositionToCellIndex (testState Method.pic 0 3 1) ⟨100, 0, 0⟩).x =
      (testState Method.pic 0 3 1).grid.size.x :=
  (world_position_to_cell_index_clamps_to_size (testState Method.pic 0 3 1) ⟨100, 0, 0⟩
    (by norm_num [testState]) (by norm_num [testState, FluidGrid.fresh])).1

/-! ## Claim C8: advection formula and bounds -/

theorem clampQ_le {v lo hi : ℚ} (h : lo ≤ hi) : lo ≤ clampQ v lo hi ∧ clampQ v lo hi ≤ hi := by
  unfold clampQ
  split_ifs with h1 h2 <;> constructor <;> linarith

/-- C8: advection with time step `dt` sets every particle's position to
`clamp(position + velocity·dt, grid_offset + skin, grid_offset + size·h -
skin)` componentwise while leaving its velocity (and every other attribute)
unchanged; consequently, whenever the skin bounds form a valid interval on
each axis, every advected position lies within them componentwise. -/
theorem advect_particles_clamps (s : SimState) (dt : ℚ)
    (hx : s.grid_offset.x + s.boundary_skin_width ≤
      s.grid_offset.x + (s.grid.size.x : ℚ) * s.cell_size - s.boundary_skin_width)
    (hy : s.grid_offset.y + s.boundary_skin_width ≤
      s.grid_offset.y + (s.grid.size.y : ℚ) * s.cell_size - s.boundary_skin_width)
    (hz : s.grid_offset.z + s.boundary_skin_width ≤
      s.grid_offset.z + (s.grid.size.z : ℚ) * s.cell_size - s.boundary_skin_width) :
    (advectParticles s dt).particles = s.particles.map (fun p =>
      { p with position := (clampVec (p.position + p.velocity * dt)
          (⟨s.grid_offset.x + s.boundary_skin_width,
            s.grid_offset.y + s.boundary_skin_width,
            s.grid_offset.z + s.boundary_skin_width⟩ : Vec3)
          (⟨s.grid_offset.x + (s.grid.size.x : ℚ) * s.cell_size - s.boundary_skin_width,
            s.grid_offset.y + (s.grid.size.y : ℚ) * s.cell_size - s.boundary_skin_width,
            s.grid_offset.z + (s.grid.size.z : ℚ) * s.cell_size -
              s.boundary_skin_width⟩ : Vec3)) }) ∧
    ∀ q ∈ (advectParticles s dt).particles,
      (s.grid_offset.x + s.boundary_skin_width ≤ q.position.x ∧
        q.position.x ≤ s.grid_offset.x + (s.grid.size.x : ℚ) * s.cell_size -
          s.boundary_skin_width) ∧
      (s.grid_offset.y + s.boundary_skin_width ≤ q.position.y ∧
        q.position.y ≤ s.grid_offset.y + (s.grid.size.y : ℚ) * s.cell_size -
          s.boundary_skin_width) ∧
      (s.grid_offset.z + s.boundary_skin_width ≤ q.position.z ∧
        q.position.z ≤ s.grid_offset.z + (s.grid.size.z : ℚ) * s.cell_size -
          s.boundary_skin_width) := by
  have hcorner : ∀ p : Particle,
      clampVec (p.position + p.velocity * dt)
        ((s.grid_offset + ⟨s.boundary_skin_width, s.boundary_skin_width,
          s.boundary_skin_width⟩ : Vec3))
        (s.cell_size * Vec3.ofVec3s s.grid.size + s.grid_offset -
          ⟨s.boundary_skin_width, s.boundary_skin_width, s.boundary_skin_width⟩) =
      clampVec (p.position + p.velocity * dt)
        ⟨s.grid_offset.x + s.boundary_skin_width,
         s.grid_offset.y + s.boundary_skin_width,
         s.grid_offset.z + s.boundary_skin_width⟩
        ⟨s.grid_offset.x + (s.grid.size.x : ℚ) * s.cell_size - s.boundary_skin_width,
         s.grid_offset.y + (s.grid.size.y : ℚ) * s.cell_size - s.boundary_skin_width,
         s.grid_offset.z + (s.grid.size.z : ℚ) * s.cell_size - s.boundary_skin_width⟩ := by
    intro p
    simp only [Vec3.add_def, Vec3.sub_def, Vec3.smul_def, Vec3.ofVec3s, clampVec,
      Vec3.mk.injEq]
    refine ⟨?_, ?_, ?_⟩
    · congr 1
      ring
    · congr 1
      ring
    · congr 1
      ring
  constructor
  · simp only [advectParticles]
    exact List.map_congr_left (fun p _ => by rw [hcorner p])
  · intro q hq
    simp only [advectParticles, List.mem_map] at hq
    obtain ⟨p, _, rfl⟩ := hq
    rw [hcorner p]
    exact ⟨⟨(clampQ_le hx).1, (clampQ_le hx).2⟩, ⟨(clampQ_le hy).1, (clampQ_le hy).2⟩,
      ⟨(clampQ_le hz).1, (clampQ_le hz).2⟩⟩

/-- Witness for C8 at a concrete state: the advected (and clamped) particle of
the 3³ test state stays within the skin bounds `[1/10, 29/10]` on every
axis. -/
theorem advect_particles_clamps_witness :
    ((1:ℚ)/10 ≤ ((advectParticles (testState Method.pic 0 3 1) 2).particles.getD 0
        default).position.x ∧
      ((advectParticles (testState Method.pic 0 3 1) 2).particles.getD 0
        default).position.x ≤ 29/10) ∧
    ((1:ℚ)/10 ≤ ((advectParticles (testState Method.pic 0 3 1) 2).particles.getD 0
        default).position.y ∧
      ((advectParticles (testState Method.pic 0 3 1) 2).particles.getD 0
        default).position.y ≤ 29/10) ∧
    ((1:ℚ)/10 ≤ ((advectParticles (testState Method.pic 0 3 1) 2).particles.getD 0
        default).position.z ∧
      ((advectParticles (testState Method.pic 0 3 1) 2).particles.getD 0
        default).position.z ≤ 29/10) := by
  have h := (advect_particles_clamps (testState Method.pic 0 3 1) 2
    (by norm_num [testState, FluidGrid.fresh])
    (by norm_num [testState, FluidGrid.fresh])
    (by norm_num [testState, FluidGrid.fresh])).2
  have hmem : ((advectParticles (testState Method.pic 0 3 1) 2).particles.getD 0 default) ∈
      (advectParticles (testState Method.pic 0 3 1) 2).particles := by
    with_unfolding_all decide
  have hq := h _ hmem
  refine ⟨⟨?_, ?_⟩, ⟨?_, ?_⟩, ⟨?_, ?_⟩⟩
  · with_unfolding_all exact hq.1.1
  · with_unfolding_all exact hq.1.2
  · with_unfolding_all exact hq.2.1.1
  · with_unfolding_all exact hq.2.1.2
  · with_unfolding_all exact hq.2.2.1
  · with_unfolding_all exact hq.2.2.2

/-! ## Claim C2: the external-force phase ignores the configured gravity -/

/-- C2: the external-force loop of `time_step` adds the hardcoded vector
`(0, -981, 0) * dt` to every cell's face velocities; the configured `gravity`
member is not consulted.  At the test state, `gravity` is `(0, 0, 0)`, whose
product with `dt` is the zero vector, yet the face velocities change by
`(0, -98.1, 0)`. -/
theorem add_gravity_ignores_configured_gravity :
    (testState Method.pic 0 3 1).gravity = ⟨0, 0, 0⟩ ∧
    (testState Method.pic 0 3 1).gravity * (1/10 : ℚ) = (⟨0, 0, 0⟩ : Vec3) ∧
    ((testState Method.pic 0 3 1).grid.get ⟨1, 1, 1⟩).velocities_posface = ⟨0, 0, 0⟩ ∧
    ((addGravity (testState Method.pic 0 3 1) (1/10)).grid.get ⟨1, 1, 1⟩).velocities_posface =
      ⟨0, -981/10, 0⟩ ∧
    (⟨0, -981/10, 0⟩ : Vec3) ≠ (⟨0, 0, 0⟩ : Vec3) := by
  refine ⟨?_, ?_, ?_, ?_, ?_⟩ <;> with_unfolding_all decide

/-! ## Claim C4: solid-cell velocities across the substep phases -/

/-- C4 counterexample: the external-force loop modifies solid cells too — at
`solidState` the solid cell `(0,0,0)` has its stored face velocities changed
by the gravity phase, so it is not the case that no phase of the substep
modifies a solid cell's stored face velocities. -/
theorem add_gravity_modifies_solid_cell :
    (solidState.grid.get ⟨0, 0, 0⟩).cell_type = CellType.solid ∧
    ((addGravity solidState (1/10)).grid.get ⟨0, 0, 0⟩).velocities_posface ≠
      (solidState.grid.get ⟨0, 0, 0⟩).velocities_posface := by
  refine ⟨?_, ?_⟩ <;> with_unfolding_all decide

/-- C4 amended: the particle-to-grid sweeps (PIC and APIC) never modify a
solid cell, and the grid-to-particle transfers modify no cell at all; but the
external-force loop adds `(0, -981, 0) * dt` to the stored face velocities of
every cell, solid cells included. -/
theorem solid_cells_and_phases (s : SimState) (i : Vec3s) (dt : ℚ) (hwf : s.grid.wf)
    (hi : inGrid s.grid.size i) (hsolid : (s.grid.get i).cell_type = CellType.solid) :
    (transferToGridPic s).grid.get i = s.grid.get i ∧
    (transferToGridApic s).grid.get i = s.grid.get i ∧
    (transferFromGridPic s).grid = s.grid ∧
    (transferFromGridFlip s s.blending_factor).grid = s.grid ∧
    (transferFromGridApic s).grid = s.grid ∧
    ((addGravity s dt).grid.get i).velocities_posface =
      (s.grid.get i).velocities_posface + (⟨0, -981, 0⟩ : Vec3) * dt := by
  refine ⟨?_, ?_, rfl, rfl, rfl, ?_⟩
  · rw [transferToGridPic, FluidGrid.get_mapCells s.grid _ i hwf hi, if_pos hsolid]
  · rw [transferToGridApic, FluidGrid.get_mapCells s.grid _ i hwf hi, if_pos hsolid]
  · rw [addGravity, FluidGrid.get_mapCells s.grid _ i hwf hi]

/-- Witness for the amended C4 at the concrete solid-cell state. -/
theorem solid_cells_and_phases_witness :
    (transferToGridPic solidState).grid.get ⟨0, 0, 0⟩ = solidState.grid.get ⟨0, 0, 0⟩ ∧
    ((addGravity solidState (1/10)).grid.get ⟨0, 0, 0⟩).velocities_posface =
      (solidState.grid.get ⟨0, 0, 0⟩).velocities_posface +
        (⟨0, -981, 0⟩ : Vec3) * ((1:ℚ)/10) := by
  have h := solid_cells_and_phases solidState ⟨0, 0, 0⟩ ((1:ℚ)/10)
    (by unfold FluidGrid.wf; with_unfolding_all decide) (by decide)
    (by with_unfolding_all decide)
  exact ⟨h.1, h.2.2.2.2.2⟩

/-! ## Claim C1: the FLIP transfer-to-grid phase -/

/-- C1: `_transfer_to_grid_flip` performs no particle-to-grid transfer at all.
At a hashed state whose single particle carries velocity `(1, 0, 0)` over an
all-zero grid: the FLIP phase leaves the grid exactly as it was (whereas the
PIC particle-to-grid sweep would change it), overwrites the particle's
velocity with the interpolation of the stale grid (zero), and snapshots the
unchanged grid — with outermost boundary faces zeroed — as `old_grid`.  The
claimed sequence (PIC particle-to-grid, then PIC grid-to-particle) would
instead preserve the particle velocity and write onto the grid. -/
theorem transfer_to_grid_flip_performs_no_p2g :
    (transferToGridFlip (hashParticles flipDemoState)).grid =
      (hashParticles flipDemoState).grid ∧
    (transferToGridPic (hashParticles flipDemoState)).grid ≠
      (hashParticles flipDemoState).grid ∧
    (hashParticles flipDemoState).particles.map (fun p => p.velocity) = [⟨1, 0, 0⟩] ∧
    (transferToGridFlip (hashParticles flipDemoState)).particles.map (fun p => p.velocity) =
      [⟨0, 0, 0⟩] ∧
    (transferToGridFlip (hashParticles flipDemoState)).old_grid =
      removeBoundaryVelocities (hashParticles flipDemoState).grid := by
  refine ⟨?_, ?_, ?_, ?_, ?_⟩ <;> with_unfolding_all decide

/-! ## Claim C5: the update driver loop -/

theorem maxSquaredVelocity_foldl_init (l : List Particle) (a : ℚ) :
    a ≤ l.foldl (fun m p => max m p.velocity.squared_length) a := by
  induction l generalizing a with
  | nil => simp
  | cons p l ih => exact le_trans (le_max_left a _) (ih _)

theorem maxSquaredVelocity_nonneg (s : SimState) : 0 ≤ maxSquaredVelocity s :=
  maxSquaredVelocity_foldl_init s.particles 0

theorem foldl_max_sq_of_zero (l : List Particle)
    (h : ∀ p ∈ l, p.velocity = (⟨0, 0, 0⟩ : Vec3)) :
    l.foldl (fun m p => max m p.velocity.squared_length) 0 = 0 := by
  induction l with
  | nil => rfl
  | cons p l ih =>
      have hp : p.velocity = (⟨0, 0, 0⟩ : Vec3) := h p (by simp)
      have hsq : p.velocity.squared_length = 0 := by
        rw [hp]
        simp [Vec3.squared_length, Vec3.dot]
      simp only [List.foldl_cons, hsq, max_self, max_eq_left (le_refl (0:ℚ))]
      exact ih (fun q hq => h q (List.mem_cons_of_mem p hq))

theorem maxSquaredVelocity_of_zero (s : SimState)
    (h : ∀ p ∈ s.particles, p.velocity = (⟨0, 0, 0⟩ : Vec3)) :
    maxSquaredVelocity s = 0 :=
  foldl_max_sq_of_zero s.particles h

theorem ratSqrt_nonneg (q : ℚ) : 0 ≤ ratSqrt q := by
  unfold ratSqrt
  positivity

theorem transferToGrid_cfl (s : SimState) :
    (transferToGrid s).cfl_number = s.cfl_number ∧
    (transferToGrid s).cell_size = s.cell_size := by
  unfold transferToGrid
  cases s.simulation_method <;> exact ⟨rfl, rfl⟩

theorem transferFromGrid_cfl (s : SimState) :
    (transferFromGrid s).cfl_number = s.cfl_number ∧
    (transferFromGrid s).cell_size = s.cell_size := by
  unfold transferFromGrid
  cases s.simulation_method <;> exact ⟨rfl, rfl⟩

theorem timeStep_preserves_config (s : SimState) (dt : ℚ) :
    (timeStep s dt).cfl_number = s.cfl_number ∧ (timeStep s dt).cell_size = s.cell_size := by
  constructor
  · calc (timeStep s dt).cfl_number
        = (pressureStep (addGravity (transferToGrid (hashParticles
            (advectParticles s dt))) dt) dt).cfl_number :=
          (transferFromGrid_cfl _).1
      _ = (transferToGrid (hashParticles (advectParticles s dt))).cfl_number := rfl
      _ = (hashParticles (advectParticles s dt)).cfl_number := (transferToGrid_cfl _).1
      _ = s.cfl_number := rfl
  · calc (timeStep s dt).cell_size
        = (pressureStep (addGravity (transferToGrid (hashParticles
            (advectParticles s dt))) dt) dt).cell_size :=
          (transferFromGrid_cfl _).2
      _ = (transferToGrid (hashParticles (advectParticles s dt))).cell_size := rfl
      _ = (hashParticles (advectParticles s dt)).cell_size := (transferToGrid_cfl _).2
      _ = s.cell_size := rfl

/-- C5 counterexample: at a state whose computed substep bound `ts` equals the
remaining time exactly (`ts = cfl_number · cell_size / sqrt(max‖v‖²) =
1 = dt`), the driver does not run exactly one substep of the remaining time
and exit: since the source compares with strict `>`, it runs a substep of
size 1 and then one further substep of size 0. -/
theorem update_extra_zero_substep_at_equality :
    maxSquaredVelocity (testState Method.pic 0 1 1) = 1 ∧
    (testState Method.pic 0 1 1).cfl_number *
      ((testState Method.pic 0 1 1).cell_size /
        ratSqrt (maxSquaredVelocity (testState Method.pic 0 1 1))) = 1 ∧
    (updateGo 3 (testState Method.pic 0 1 1) 1).map Prod.snd = some [1, 0] := by
  refine ⟨?_, ?_, ?_⟩ <;> with_unfolding_all decide

/-- C5 amended: the loop runs a substep of size `ts` and continues whenever
`ts ≤ dt_remaining` — in particular, when `ts` equals the remaining time
exactly, a substep of the full remaining time is followed by one additional
zero-length substep before the loop exits (the `ts > dt` comparison is
strict); only `ts > dt_remaining` (including the all-velocities-zero case,
where the IEEE quotient is `+∞`, modelled by `maxSquaredVelocity s = 0`)
runs a single substep of the remaining time and exits.  The three clauses
cover: (1) the strict-exceed exit, (2) the all-velocities-zero exit, and
(3) the equality case with its extra zero-length substep. -/
theorem update_substeps_equality_case (s : SimState) (dt : ℚ) (fuel : ℕ)
    (hpos : 0 < s.cfl_number * s.cell_size) :
    (tsExceeds s.cfl_number s.cell_size (maxSquaredVelocity s) dt →
      updateGo (fuel + 1) s dt = some (timeStep s dt, [dt])) ∧
    ((∀ p ∈ s.particles, p.velocity = (⟨0, 0, 0⟩ : Vec3)) →
      updateGo (fuel + 1) s dt = some (timeStep s dt, [dt])) ∧
    (maxSquaredVelocity s ≠ 0 →
      ratSqrt (maxSquaredVelocity s) ^ 2 = maxSquaredVelocity s →
      s.cfl_number * (s.cell_size / ratSqrt (maxSquaredVelocity s)) = dt →
      updateGo (fuel + 2) s dt = some (timeStep (timeStep s dt) 0, [dt, 0])) := by
  refine ⟨?_, ?_, ?_⟩
  · intro hex
    rw [updateGo, if_pos hex]
  · intro hz
    have h0 : maxSquaredVelocity s = 0 := maxSquaredVelocity_of_zero s hz
    have hex : tsExceeds s.cfl_number s.cell_size (maxSquaredVelocity s) dt := Or.inl h0
    rw [updateGo, if_pos hex]
  intro hm0 hsq heq
  have hr0 : ratSqrt (maxSquaredVelocity s) ≠ 0 := by
    intro h0
    rw [h0] at hsq
    simp at hsq
    exact hm0 hsq.symm
  have hrpos : 0 < ratSqrt (maxSquaredVelocity s) :=
    lt_of_le_of_ne (ratSqrt_nonneg _) (Ne.symm hr0)
  have hdtpos : 0 < dt := by
    rw [← heq, mul_div_assoc']
    exact div_pos hpos hrpos
  have hkey : dt ^ 2 * maxSquaredVelocity s = (s.cfl_number * s.cell_size) ^ 2 := by
    rw [← heq]
    generalize hgen : ratSqrt (maxSquaredVelocity s) = r at hsq hr0
    rw [← hsq]
    field_simp
  have hnot : ¬ tsExceeds s.cfl_number s.cell_size (maxSquaredVelocity s) dt := by
    unfold tsExceeds
    push_neg
    exact ⟨hm0, le_of_lt hdtpos, le_of_eq hkey.symm⟩
  have hcond2 : tsExceeds (timeStep s dt).cfl_number (timeStep s dt).cell_size
      (maxSquaredVelocity (timeStep s dt)) 0 := by
    unfold tsExceeds
    rcases eq_or_ne (maxSquaredVelocity (timeStep s dt)) 0 with h0 | h0
    · exact Or.inl h0
    · refine Or.inr (Or.inr ?_)
      rw [(timeStep_preserves_config s dt).1, (timeStep_preserves_config s dt).2]
      have hz : (0:ℚ) ^ 2 * maxSquaredVelocity (timeStep s dt) = 0 := by ring
      rw [hz]
      exact pow_pos hpos 2
  have e1 : updateGo (fuel + 2) s dt =
      (updateGo (fuel + 1) (timeStep s dt) 0).map (fun r => (r.1, dt :: r.2)) := by
    show updateGo ((fuel + 1) + 1) s dt = _
    rw [updateGo, if_neg hnot, if_pos hsq, heq, sub_self]
  have e2 : updateGo (fuel + 1) (timeStep s dt) 0 = some (timeStep (timeStep s dt) 0, [0]) := by
    rw [updateGo, if_pos hcond2]
  rw [e1, e2]
  rfl

/-- Witness for the amended C5 at the concrete state with `ts = dt = 1`. -/
theorem update_substeps_equality_case_witness :
    updateGo 2 (testState Method.pic 0 1 1) 1 =
      some (timeStep (timeStep (testState Method.pic 0 1 1) 1) 0, [1, 0]) :=
  (update_substeps_equality_case (testState Method.pic 0 1 1) 1 0
      (by norm_num [testState])).2.2
    (by with_unfolding_all decide)
    (by with_unfolding_all decide)
    (by with_unfolding_all decide)

/-! ## Claim C9: invalid configurations are not rejected -/

/-- C9 counterexample: with `blending_factor = 2 ∉ [0,1]` no error is raised
and the simulation is advanced: a single `update` call completes a substep of
the full `dt` and changes the particle's velocity from zero to
`(0, -98.1, 0)`. -/
theorem invalid_blend_still_advances :
    1 < (testState Method.flip_blend 2 3 0).blending_factor ∧
    (testState Method.flip_blend 2 3 0).particles.map (fun p => p.velocity) =
      [⟨0, 0, 0⟩] ∧
    (updateGo 1 (testState Method.flip_blend 2 3 0) (1/10)).map
        (fun r => (r.2, r.1.particles.map (fun p => p.velocity))) =
      some ([1/10], [⟨0, -981/10, 0⟩]) := by
  refine ⟨?_, ?_, ?_⟩ <;> with_unfolding_all decide

/-- C9 amended: the driver performs no configuration validation at all — an
`update` under the invalid `blending_factor = 2` advances the state exactly
as under the valid `blending_factor = 1/2`, with no error reported. -/
theorem no_validation_update_advances :
    (updateGo 1 (testState Method.flip_blend 2 3 0) (1/10)).map (fun r => r.1.particles) =
      (updateGo 1 (testState Method.flip_blend (1/2) 3 0) (1/10)).map
        (fun r => r.1.particles) ∧
    (updateGo 1 (testState Method.flip_blend 2 3 0) (1/10)).map
        (fun r => r.1.particles.map (fun p => p.velocity)) =
      some [⟨0, -981/10, 0⟩] := by
  refine ⟨?_, ?_⟩ <;> with_unfolding_all decide

/-! ## Claim C3: flip_blend with blend 0 versus pic -/

/-- C3: one substep with `method = flip_blend, blending_factor = 0` does not
agree with the same substep under `method = pic`: from identical initial
states, the particle positions agree but the velocities differ by `1` in the
x component — far beyond `1e-10` — because `_transfer_to_grid_flip` never
transfers the particle velocities onto the grid. -/
theorem flip_blend_zero_differs_from_pic :
    (timeStep (testState Method.pic 0 3 1) (1/10)).particles.map
        (fun p => (p.position, p.velocity)) =
      [(⟨3/2, 3/2, 3/2⟩, ⟨1, -981/10, 0⟩)] ∧
    (timeStep (testState Method.flip_blend 0 3 1) (1/10)).particles.map
        (fun p => (p.position, p.velocity)) =
      [(⟨3/2, 3/2, 3/2⟩, ⟨0, -981/10, 0⟩)] ∧
    ¬ (|(1 : ℚ) - 0| ≤ 1/10000000000) := by
  refine ⟨?_, ?_, ?_⟩
  · with_unfolding_all rfl
  · with_unfolding_all rfl
  · norm_num

/-! ## Claim C6: the hash invariant -/

theorem rat_floor_max_zero (q : ℚ) : Rat.floor (max q 0) = max (Rat.floor q) 0 := by
  rcases le_total q 0 with h | h
  · rw [max_eq_right h]
    have hf0 : Rat.floor (0 : ℚ) = 0 := by
      have := Rat.le_floor (z := 0) (r := (0:ℚ))
      have h1 : (0:ℤ) ≤ Rat.floor (0:ℚ) := this.mpr (by norm_num)
      have h2 : ¬ ((1:ℤ) ≤ Rat.floor (0:ℚ)) := by
        intro hc
        have := (Rat.le_floor (z := 1) (r := (0:ℚ))).mp hc
        norm_num at this
      omega
    have hneg : Rat.floor q ≤ 0 := by
      by_contra hc
      push_neg at hc
      have h1 : (1:ℤ) ≤ Rat.floor q := hc
      have := (Rat.le_floor (z := 1) (r := q)).mp h1
      have : (1:ℚ) ≤ 0 := le_trans this h
      norm_num at this
    rw [hf0, max_eq_right hneg]
  · rw [max_eq_left h]
    have hpos : 0 ≤ Rat.floor q := (Rat.le_floor (z := 0) (r := q)).mpr (by exact_mod_cast h)
    rw [max_eq_left hpos]

/-- The spec's clamp formula for the owning cell coincides with the source's
`min(size_t(max(..., 0)), size - 1)` computation on non-empty grids. -/
theorem specGridIndex_eq_computeGridIndex (cs : ℚ) (off : Vec3) (size : Vec3s) (pos : Vec3)
    (hx : 0 < size.x) (hy : 0 < size.y) (hz : 0 < size.z) :
    specGridIndex cs off size pos = computeGridIndex cs off size pos := by
  unfold specGridIndex computeGridIndex
  simp only [Vec3s.mk.injEq]
  refine ⟨?_, ?_, ?_⟩ <;> · rw [rat_floor_max_zero]; omega

theorem computeGridIndex_inGrid (cs : ℚ) (off : Vec3) (size : Vec3s) (pos : Vec3)
    (hx : 0 < size.x) (hy : 0 < size.y) (hz : 0 < size.z) :
    inGrid size (computeGridIndex cs off size pos) := by
  unfold computeGridIndex inGrid
  refine ⟨?_, ?_, ?_⟩ <;>
    exact Nat.lt_of_le_of_lt (Nat.min_le_right _ _) (by omega)

theorem insertAll_length (tbl : List (List ℕ)) (pairs : List (ℕ × ℕ)) :
    (insertAll tbl pairs).length = tbl.length := by
  induction pairs generalizing tbl with
  | nil => rfl
  | cons pr rest ih =>
      obtain ⟨i, b⟩ := pr
      rw [insertAll, ih]
      simp

theorem insertAll_getD (tbl : List (List ℕ)) (pairs : List (ℕ × ℕ)) (b : ℕ)
    (hb : b < tbl.length) :
    (insertAll tbl pairs).getD b [] =
      tbl.getD b [] ++ (pairs.filter (fun pr => decide (pr.2 = b))).map Prod.fst := by
  induction pairs generalizing tbl with
  | nil => simp [insertAll]
  | cons pr rest ih =>
      obtain ⟨i, e⟩ := pr
      rw [insertAll]
      have hb' : b < (tbl.set e (tbl.getD e [] ++ [i])).length := by simpa using hb
      rw [ih _ hb']
      by_cases hebe : e = b
      · subst hebe
        have hself : (tbl.set e (tbl.getD e [] ++ [i])).getD e [] = tbl.getD e [] ++ [i] := by
          rw [List.getD_eq_getElem _ _ hb', List.getElem_set_self]
        rw [hself, List.filter_cons]
        simp
      · have hne : (tbl.set e (tbl.getD e [] ++ [i])).getD b [] = tbl.getD b [] := by
          rw [List.getD_eq_getElem _ _ hb', List.getD_eq_getElem _ _ hb,
            List.getElem_set_ne hebe]
        rw [hne, List.filter_cons]
        simp [hebe]

theorem sum_map_length_set (tbl : List (List ℕ)) (b : ℕ) (x : List ℕ) (hb : b < tbl.length) :
    ((tbl.set b x).map List.length).sum + (tbl.getD b []).length
      = (tbl.map List.length).sum + x.length := by
  induction tbl generalizing b with
  | nil => simp at hb
  | cons hd tl ih =>
      cases b with
      | zero =>
          simp only [List.set_cons_zero, List.map_cons, List.sum_cons, List.getD_cons_zero]
          omega
      | succ b' =>
          have hb' : b' < tl.length := by simpa using hb
          simp only [List.set_cons_succ, List.map_cons, List.sum_cons, List.getD_cons_succ]
          have := ih b' hb'
          omega

theorem insertAll_sum_lengths (tbl : List (List ℕ)) (pairs : List (ℕ × ℕ))
    (hall : ∀ pr ∈ pairs, pr.2 < tbl.length) :
    ((insertAll tbl pairs).map List.length).sum = (tbl.map List.length).sum + pairs.length := by
  induction pairs generalizing tbl with
  | nil => simp [insertAll]
  | cons pr rest ih =>
      obtain ⟨i, e⟩ := pr
      have he : e < tbl.length := hall (i, e) (by simp)
      rw [insertAll]
      rw [ih _ (by simpa using fun pr hpr => hall pr (List.mem_cons_of_mem _ hpr))]
      have hset := sum_map_length_set tbl e (tbl.getD e [] ++ [i]) he
      simp only [List.length_append, List.length_cons, List.length_nil] at hset ⊢
      omega

theorem countP_enumFrom_fst {α : Type} [Inhabited α] (ps : List α) (n i : ℕ) (g : α → Bool) :
    (List.enumFrom n ps).countP (fun pr => decide (pr.1 = i) && g pr.2)
      = if n ≤ i ∧ i < n + ps.length ∧ g (ps.getD (i - n) default) = true then 1 else 0 := by
  induction ps generalizing n with
  | nil =>
      rw [List.enumFrom_nil, List.countP_nil, if_neg]
      rintro ⟨h1, h2, -⟩
      simp at h2
      omega
  | cons p rest ih =>
      rw [List.enumFrom_cons, List.countP_cons, ih (n + 1)]
      by_cases hni : n = i
      · subst hni
        have hz : n - n = 0 := by omega
        have hneg : ¬ (n + 1 ≤ n ∧ n < n + 1 + rest.length ∧
            g (rest.getD (n - (n + 1)) default) = true) := by
          rintro ⟨h1, -, -⟩
          omega
        rw [if_neg hneg, if_congr (show (n ≤ n ∧ n < n + (p :: rest).length ∧
            g ((p :: rest).getD (n - n) default) = true) ↔ (g p = true) by
          rw [hz, List.getD_cons_zero]
          simp only [List.length_cons]
          constructor
          · rintro ⟨-, -, h⟩; exact h
          · intro h; exact ⟨le_refl n, by omega, h⟩) rfl rfl]
        by_cases hg : g p = true
        · rw [if_pos hg]
          simp [hg]
        · rw [if_neg hg]
          have : g p = false := by
            cases hgp : g p
            · rfl
            · exact absurd hgp hg
          simp [this]
      · have hd : (decide (n = i) && g p) = false := by simp [hni]
        rw [hd]
        simp only [if_neg (show ¬ (false = true) by simp)]
        by_cases hle : n + 1 ≤ i
        · have hsub : i - n = (i - (n + 1)) + 1 := by omega
          rw [if_congr (show (n ≤ i ∧ i < n + (p :: rest).length ∧
              g ((p :: rest).getD (i - n) default) = true) ↔
              (n + 1 ≤ i ∧ i < n + 1 + rest.length ∧
                g (rest.getD (i - (n + 1)) default) = true) by
            rw [hsub, List.getD_cons_succ]
            simp only [List.length_cons]
            constructor
            · rintro ⟨-, h2, h3⟩; exact ⟨hle, by omega, h3⟩
            · rintro ⟨h1, h2, h3⟩; exact ⟨by omega, by omega, h3⟩) rfl rfl]
          omega
        · have h1 : ¬ (n + 1 ≤ i ∧ i < n + 1 + rest.length ∧
              g (rest.getD (i - (n + 1)) default) = true) := by
            rintro ⟨h1, -, -⟩; omega
          have h2 : ¬ (n ≤ i ∧ i < n + (p :: rest).length ∧
              g ((p :: rest).getD (i - n) default) = true) := by
            rintro ⟨ha, -, -⟩
            rcases Nat.lt_or_ge n i with hlt | hge
            · omega
            · exact hni (by omega)
          rw [if_neg h1, if_neg h2]


theorem getD_replicate_list (n : ℕ) (a : List ℕ) (i : ℕ) (h : i < n) :
    (List.replicate n a).getD i [] = a := by
  rw [List.getD_eq_getElem _ _ (by simpa using h), List.getElem_replicate]

theorem beq_nat_eq_decide (x i : ℕ) : (x == i) = decide (x = i) := by
  cases h : decide (x = i)
  · simp at h
    simp [h]
  · simp at h
    simp [h]

/-- C6: after `hash_particles` — (a) every particle's `grid_index` equals
`clamp(floor((position - grid_offset)/cell_size), 0, size - 1)` componentwise;
(b) each particle index appears exactly once across the buckets, namely in the
bucket keyed by its `grid_index`; (c) the total bucket population equals the
particle count. -/
theorem hash_particles_invariant (s : SimState)
    (hx : 0 < s.grid.size.x) (hy : 0 < s.grid.size.y) (hz : 0 < s.grid.size.z)
    (hsz : s.space_hash.size = s.grid.size) :
    ((hashParticles s).particles = s.particles.map (fun p =>
      { p with grid_index := specGridIndex s.cell_size s.grid_offset s.grid.size p.position })) ∧
    (∀ i, i < (hashParticles s).particles.length →
      ∀ b, b < (hashParticles s).space_hash.table.length →
        ((hashParticles s).space_hash.table.getD b []).count i =
          if b = encodeIdx (hashParticles s).space_hash.size
              (((hashParticles s).particles.getD i default).grid_index) then 1 else 0) ∧
    ((hashParticles s).space_hash.table.map List.length).sum =
      (hashParticles s).particles.length := by
  have hps : (hashParticles s).particles = s.particles.map (fun p =>
      { p with grid_index :=
          (computeGridIndex s.cell_size s.grid_offset s.grid.size p.position) }) := rfl
  have hpairs : (hashParticles s).space_hash.table =
      insertAll (List.replicate s.space_hash.size.volume [])
        (((hashParticles s).particles.enum).map
          (fun ip => (ip.1, encodeIdx s.space_hash.size ip.2.grid_index))) := rfl
  have hgi : ∀ p ∈ (hashParticles s).particles,
      inGrid s.grid.size p.grid_index := by
    intro p hp
    rw [hps] at hp
    obtain ⟨q, -, rfl⟩ := List.mem_map.mp hp
    exact computeGridIndex_inGrid _ _ _ _ hx hy hz
  have hvol : ∀ pr ∈ ((hashParticles s).particles.enum).map
      (fun ip => (ip.1, encodeIdx s.space_hash.size ip.2.grid_index)),
      pr.2 < s.space_hash.size.volume := by
    intro pr hpr
    obtain ⟨ip, hip, rfl⟩ := List.mem_map.mp hpr
    have hmem : ip.2 ∈ (hashParticles s).particles := by
      have := List.enum_map_snd (hashParticles s).particles
      rw [← this]
      exact List.mem_map_of_mem Prod.snd hip
    have := hgi ip.2 hmem
    rw [hsz]
    exact encodeIdx_lt _ _ this
  have htlen : (hashParticles s).space_hash.table.length = s.space_hash.size.volume := by
    rw [hpairs, insertAll_length, List.length_replicate]
  refine ⟨?_, ?_, ?_⟩
  · rw [hps]
    exact List.map_congr_left (fun p _ => by
      rw [specGridIndex_eq_computeGridIndex _ _ _ _ hx hy hz])
  · intro i hi b hb
    rw [htlen] at hb
    have hbucket : ((hashParticles s).space_hash.table).getD b [] =
        ((((hashParticles s).particles.enum).map
          (fun ip => (ip.1, encodeIdx s.space_hash.size ip.2.grid_index))).filter
            (fun pr => decide (pr.2 = b))).map Prod.fst := by
      rw [hpairs, insertAll_getD _ _ _ (by simpa using hb), getD_replicate_list _ _ _ hb,
        List.nil_append]
    have e1 : ((hashParticles s).space_hash.table.getD b []).count i =
        ((hashParticles s).particles.enum).countP
          (fun pr => decide (pr.1 = i) &&
            (fun p : Particle => decide (encodeIdx s.space_hash.size p.grid_index = b)) pr.2) := by
      rw [hbucket]
      rw [show ∀ (l : List ℕ), l.count i = l.countP (fun x => x == i) from fun l => rfl]
      rw [List.countP_map, List.countP_filter, List.countP_map]
      refine List.countP_congr (fun ip hip => ?_)
      simp only [Function.comp]
      rw [beq_nat_eq_decide]
    have e2 := countP_enumFrom_fst (hashParticles s).particles 0 i
      (fun p : Particle => decide (encodeIdx s.space_hash.size p.grid_index = b))
    rw [e1]
    rw [show (hashParticles s).particles.enum =
        List.enumFrom 0 (hashParticles s).particles from rfl]
    rw [e2]
    have hcond : (0 ≤ i ∧ i < 0 + (hashParticles s).particles.length ∧
        (fun p : Particle => decide (encodeIdx s.space_hash.size p.grid_index = b))
          ((hashParticles s).particles.getD (i - 0) default) = true) ↔
        (b = encodeIdx (hashParticles s).space_hash.size
          (((hashParticles s).particles.getD i default).grid_index)) := by
      simp only [Nat.sub_zero, Nat.zero_add, decide_eq_true_eq]
      constructor
      · rintro ⟨-, -, hdec⟩
        exact hdec.symm
      · intro hbe
        exact ⟨Nat.zero_le i, hi, hbe.symm⟩
    rw [if_congr hcond rfl rfl]
  · rw [hpairs, insertAll_sum_lengths _ _ (by simpa using hvol)]
    simp [hps]


/-- Witness for C6 at the three-particle state: particle 1 (position
`(5, 3/2, 1/2)`, clamped to cell `(1,1,0)`) is counted once in bucket 3 (its
cell's raw index), zero times in bucket 0, and the buckets hold 3 indices in
total. -/
theorem hash_particles_invariant_witness :
    ((hashParticles hashState).space_hash.table.getD 3 []).count 1 = 1 ∧
    ((hashParticles hashState).space_hash.table.getD 0 []).count 1 = 0 ∧
    ((hashParticles hashState).space_hash.table.map List.length).sum =
      (hashParticles hashState).particles.length := by
  have h := hash_particles_invariant hashState (by decide) (by decide) (by decide) (by decide)
  refine ⟨?_, ?_, h.2.2⟩
  · have hb := h.2.1 1 (by with_unfolding_all decide) 3 (by with_unfolding_all decide)
    rw [hb, if_pos (by with_unfolding_all decide)]
  · have hb := h.2.1 1 (by with_unfolding_all decide) 0 (by with_unfolding_all decide)
    rw [hb, if_neg (by with_unfolding_all decide)]


/-! ## Claim C7: the PIC particle-to-grid formula -/

theorem sum_map_flatMap {α : Type} (B : List α) (g : α → List ℕ) (f : ℕ → ℚ) :
    ((B.flatMap g).map f).sum = (B.map (fun d => ((g d).map f).sum)).sum := by
  induction B with
  | nil => simp
  | cons d rest ih => simp [List.flatMap_cons, ih]

theorem nodup_flatMap_key {α : Type} (l : List ℕ) (f : ℕ → List α) (key : α → ℕ)
    (hl : l.Nodup) (hf : ∀ z ∈ l, (f z).Nodup) (hkey : ∀ z ∈ l, ∀ a ∈ f z, key a = z) :
    (l.flatMap f).Nodup := by
  induction l with
  | nil => simp
  | cons z rest ih =>
      rw [List.flatMap_cons]
      have hzn : z ∉ rest := (List.nodup_cons.mp hl).1
      have hrest : rest.Nodup := (List.nodup_cons.mp hl).2
      refine (hf z (by simp)).append
        (ih hrest (fun w hw => hf w (List.mem_cons_of_mem z hw))
          (fun w hw a ha => hkey w (List.mem_cons_of_mem z hw) a ha)) ?_
      intro a ha hmem
      obtain ⟨w, hw, haw⟩ := List.mem_flatMap.mp hmem
      have h1 : key a = z := hkey z (by simp) a ha
      have h2 : key a = w := hkey w (List.mem_cons_of_mem z hw) a haw
      exact hzn (h1 ▸ h2 ▸ hw)

theorem nearbyCells_nodup (size center back fwd : Vec3s) :
    (nearbyCells size center back fwd).Nodup := by
  unfold nearbyCells
  refine nodup_flatMap_key _ _ (fun d => d.z) (List.nodup_range' _ _) ?_ ?_
  · intro z hz
    refine nodup_flatMap_key _ _ (fun d => d.y) (List.nodup_range' _ _) ?_ ?_
    · intro y hy
      refine List.Nodup.map ?_ (List.nodup_range' _ _)
      intro a b hab
      simpa using congrArg Vec3s.x hab
    · intro y hy a ha
      obtain ⟨x, hxm, rfl⟩ := List.mem_map.mp ha
      rfl
  · intro z hz a ha
    obtain ⟨y, hym, hay⟩ := List.mem_flatMap.mp ha
    obtain ⟨x, hxm, rfl⟩ := List.mem_map.mp hay
    rfl

theorem nearbyCells_inGrid (size center back fwd : Vec3s)
    (hx : 0 < size.x) (hy : 0 < size.y) (hz : 0 < size.z) :
    ∀ d ∈ nearbyCells size center back fwd, inGrid size d := by
  intro d hd
  unfold nearbyCells at hd
  obtain ⟨z, hzm, hdz⟩ := List.mem_flatMap.mp hd
  obtain ⟨y, hym, hdy⟩ := List.mem_flatMap.mp hdz
  obtain ⟨x, hxm, rfl⟩ := List.mem_map.mp hdy
  have hxr := List.mem_range'_1.mp hxm
  have hyr := List.mem_range'_1.mp hym
  have hzr := List.mem_range'_1.mp hzm
  refine ⟨?_, ?_, ?_⟩ <;>
    · simp only []
      omega

theorem sum_filter_or_disjoint (ps : List Particle) (P Q : Particle → Bool)
    (hdisj : ∀ p, ¬(P p = true ∧ Q p = true)) (F : Particle → ℚ) :
    ((ps.filter (fun p => P p || Q p)).map F).sum =
      ((ps.filter P).map F).sum + ((ps.filter Q).map F).sum := by
  induction ps with
  | nil => simp
  | cons p ps ih =>
      rw [List.filter_cons, List.filter_cons, List.filter_cons]
      by_cases hP : P p = true
      · have hQ : ¬ (Q p = true) := fun hq => hdisj p ⟨hP, hq⟩
        rw [if_pos (show (P p || Q p) = true by rw [hP]; rfl), if_pos hP, if_neg hQ,
          List.map_cons, List.sum_cons, List.map_cons, List.sum_cons, ih]
        ring
      · by_cases hQ : Q p = true
        · have hor : (P p || Q p) = true := by
            rw [hQ]
            exact Bool.or_true _
          rw [if_pos hor, if_neg hP, if_pos hQ, List.map_cons, List.sum_cons,
            List.map_cons, List.sum_cons, ih]
          ring
        · have hor : ¬ ((P p || Q p) = true) := by
            intro hc
            rcases Bool.or_eq_true_iff.mp hc with h | h
            · exact hP h
            · exact hQ h
          rw [if_neg hor, if_neg hP, if_neg hQ, ih]

theorem sum_filter_mem_cons (ps : List Particle) (d : Vec3s) (rest : List Vec3s)
    (hd : d ∉ rest) (F : Particle → ℚ) :
    ((ps.filter (fun p => decide (p.grid_index ∈ d :: rest))).map F).sum =
      ((ps.filter (fun p => decide (p.grid_index = d))).map F).sum +
      ((ps.filter (fun p => decide (p.grid_index ∈ rest))).map F).sum := by
  have hpred : ∀ p : Particle, (decide (p.grid_index ∈ d :: rest)) =
      (decide (p.grid_index = d) || decide (p.grid_index ∈ rest)) := by
    intro p
    by_cases h1 : p.grid_index = d
    · simp [h1]
    · by_cases h2 : p.grid_index ∈ rest
      · simp [h1, h2]
      · simp [h1, h2]
  rw [List.filter_congr (fun x _ => hpred x)]
  refine sum_filter_or_disjoint ps _ _ ?_ F
  intro p ⟨h1, h2⟩
  exact hd ((of_decide_eq_true h1) ▸ of_decide_eq_true h2)

theorem sum_filter_partition (ps : List Particle) (B : List Vec3s) (hnd : B.Nodup)
    (F : Particle → ℚ) :
    (B.map (fun d => ((ps.filter (fun p => decide (p.grid_index = d))).map F).sum)).sum =
      ((ps.filter (fun p => decide (p.grid_index ∈ B))).map F).sum := by
  induction B with
  | nil => simp
  | cons d rest ih =>
      have hdr : d ∉ rest := (List.nodup_cons.mp hnd).1
      rw [List.map_cons, List.sum_cons, ih (List.nodup_cons.mp hnd).2,
        sum_filter_mem_cons ps d rest hdr F]

theorem enum_filter_map_snd (ps : List Particle) (P : Particle → Bool) (F : Particle → ℚ) :
    ((ps.enum.filter (fun ip => P ip.2)).map (fun ip => F ip.2)) = (ps.filter P).map F := by
  rw [show ps.enum = List.enumFrom 0 ps from rfl]
  suffices h : ∀ n, (((List.enumFrom n ps).filter (fun ip => P ip.2)).map (fun ip => F ip.2))
      = (ps.filter P).map F from h 0
  induction ps with
  | nil => intro n; simp
  | cons p rest ih =>
      intro n
      rw [List.enumFrom_cons, List.filter_cons, List.filter_cons]
      by_cases hp : P p = true
      · rw [if_pos hp, if_pos hp, List.map_cons, ih (n + 1), List.map_cons]
      · rw [if_neg hp, if_neg hp, ih (n + 1)]

theorem enum_getD (ps : List Particle) (ip : ℕ × Particle) (h : ip ∈ ps.enum) :
    ps.getD ip.1 default = ip.2 := by
  have := List.mem_enum_iff_getElem?.mp h
  rw [List.getD_eq_getElem?_getD, this]
  rfl


theorem hashParticles_grid_index_inGrid (s : SimState)
    (hx : 0 < s.grid.size.x) (hy : 0 < s.grid.size.y) (hz : 0 < s.grid.size.z) :
    ∀ p ∈ (hashParticles s).particles, inGrid s.grid.size p.grid_index := by
  intro p hp
  have hps : (hashParticles s).particles = s.particles.map (fun p =>
      { p with grid_index :=
          (computeGridIndex s.cell_size s.grid_offset s.grid.size p.position) }) := rfl
  rw [hps] at hp
  obtain ⟨q, -, rfl⟩ := List.mem_map.mp hp
  exact computeGridIndex_inGrid _ _ _ _ hx hy hz

theorem hash_bucket_content (s : SimState) (b : ℕ) (hb : b < s.space_hash.size.volume) :
    (hashParticles s).space_hash.table.getD b [] =
      ((((hashParticles s).particles.enum).map
        (fun ip => (ip.1, encodeIdx s.space_hash.size ip.2.grid_index))).filter
          (fun pr => decide (pr.2 = b))).map Prod.fst := by
  rw [show (hashParticles s).space_hash.table =
      insertAll (List.replicate s.space_hash.size.volume [])
        (((hashParticles s).particles.enum).map
          (fun ip => (ip.1, encodeIdx s.space_hash.size ip.2.grid_index))) from rfl,
    insertAll_getD _ _ _ (by simpa using hb), getD_replicate_list _ _ _ hb, List.nil_append]

/-- The sum delivered by the bucket traversal of `for_all_nearby_objects`
over a freshly hashed state equals the sum over the particles whose owning
cell lies in the (clamped) 3×3×3 block: the hash refines the claim's
particle-set description. -/
theorem nearby_sum_spec (s : SimState)
    (hx : 0 < s.grid.size.x) (hy : 0 < s.grid.size.y) (hz : 0 < s.grid.size.z)
    (hsz : s.space_hash.size = s.grid.size) (c : Vec3s) (F : Particle → ℚ) :
    ((nearbyIndices (hashParticles s).space_hash c ⟨1, 1, 1⟩ ⟨1, 1, 1⟩).map
        (fun i => F ((hashParticles s).particles.getD i default))).sum =
      ((specNearbyParticles (hashParticles s) c).map F).sum := by
  have hgi := hashParticles_grid_index_inGrid s hx hy hz
  have hne : nearbyIndices (hashParticles s).space_hash c ⟨1, 1, 1⟩ ⟨1, 1, 1⟩ =
      (nearbyCells s.grid.size c ⟨1, 1, 1⟩ ⟨1, 1, 1⟩).flatMap
        (fun d => (hashParticles s).space_hash.table.getD (encodeIdx s.grid.size d) []) := by
    unfold nearbyIndices
    rw [show (hashParticles s).space_hash.size = s.space_hash.size from rfl, hsz]
  rw [hne, sum_map_flatMap]
  have hinner : ∀ d ∈ nearbyCells s.grid.size c ⟨1, 1, 1⟩ ⟨1, 1, 1⟩,
      (((hashParticles s).space_hash.table.getD (encodeIdx s.grid.size d) []).map
          (fun i => F ((hashParticles s).particles.getD i default))).sum =
        (((hashParticles s).particles.filter
          (fun p => decide (p.grid_index = d))).map F).sum := by
    intro d hd
    have hdin : inGrid s.grid.size d :=
      nearbyCells_inGrid s.grid.size c ⟨1, 1, 1⟩ ⟨1, 1, 1⟩ hx hy hz d hd
    have hblt : encodeIdx s.grid.size d < s.space_hash.size.volume := by
      rw [hsz]
      exact encodeIdx_lt _ _ hdin
    have hbc := hash_bucket_content s (encodeIdx s.grid.size d) hblt
    rw [show encodeIdx s.space_hash.size = encodeIdx s.grid.size from by rw [hsz]] at hbc
    rw [hbc, List.filter_map, List.map_map, List.map_map]
    have hfc : ∀ ip ∈ (hashParticles s).particles.enum,
        ((fun pr : ℕ × ℕ => decide (pr.2 = encodeIdx s.grid.size d)) ∘
          (fun ip : ℕ × Particle => (ip.1, encodeIdx s.grid.size ip.2.grid_index))) ip =
        (fun ip : ℕ × Particle => decide (ip.2.grid_index = d)) ip := by
      intro ip hip
      have hmem : ip.2 ∈ (hashParticles s).particles := by
        have := List.enum_map_snd (hashParticles s).particles
        rw [← this]
        exact List.mem_map_of_mem Prod.snd hip
      simp only [Function.comp]
      by_cases he : ip.2.grid_index = d
      · simp [he]
      · have : encodeIdx s.grid.size ip.2.grid_index ≠ encodeIdx s.grid.size d := by
          intro hc
          exact he (encodeIdx_inj s.grid.size (hgi ip.2 hmem) hdin hc)
        simp [this, he]
    rw [List.filter_congr hfc]
    refine congrArg List.sum ?_
    rw [← enum_filter_map_snd (hashParticles s).particles
      (fun p => decide (p.grid_index = d)) F]
    refine List.map_congr_left (fun ip hip => ?_)
    simp only [Function.comp]
    rw [enum_getD _ _ (List.mem_of_mem_filter hip)]
  rw [List.map_congr_left hinner]
  rw [sum_filter_partition _ _ (nearbyCells_nodup _ _ _ _)]
  rfl


theorem vec3_zero_add (v : Vec3) : (⟨0, 0, 0⟩ : Vec3) + v = v := by
  cases v
  simp [Vec3.add_def]

theorem foldl_accum_pair (idxs : List ℕ) (f g : ℕ → Vec3) (a b : Vec3) :
    idxs.foldl (fun acc i => (acc.1 + f i, acc.2 + g i)) (a, b) =
      (a + ⟨(idxs.map (fun i => (f i).x)).sum, (idxs.map (fun i => (f i).y)).sum,
        (idxs.map (fun i => (f i).z)).sum⟩,
       b + ⟨(idxs.map (fun i => (g i).x)).sum, (idxs.map (fun i => (g i).y)).sum,
        (idxs.map (fun i => (g i).z)).sum⟩) := by
  induction idxs generalizing a b with
  | nil =>
      simp only [List.foldl_nil, List.map_nil, List.sum_nil]
      cases a
      cases b
      simp [Vec3.add_def]
  | cons i rest ih =>
      rw [List.foldl_cons, ih]
      simp only [List.map_cons, List.sum_cons, Prod.mk.injEq]
      cases a
      cases b
      constructor
      · simp [Vec3.add_def, Vec3.mk.injEq]
        refine ⟨by ring, by ring, by ring⟩
      · simp [Vec3.add_def, Vec3.mk.injEq]
        refine ⟨by ring, by ring, by ring⟩

theorem picAccum_eq_sums (s : SimState) (xf yf zf : Vec3) (idxs : List ℕ) :
    picAccum s xf yf zf idxs =
      (⟨(idxs.map (fun i => kernel s.cell_size ((s.particles.getD i default).position - xf) *
            (s.particles.getD i default).velocity.x)).sum,
        (idxs.map (fun i => kernel s.cell_size ((s.particles.getD i default).position - yf) *
            (s.particles.getD i default).velocity.y)).sum,
        (idxs.map (fun i => kernel s.cell_size ((s.particles.getD i default).position - zf) *
            (s.particles.getD i default).velocity.z)).sum⟩,
       ⟨(idxs.map (fun i => kernel s.cell_size ((s.particles.getD i default).position - xf))).sum,
        (idxs.map (fun i => kernel s.cell_size ((s.particles.getD i default).position - yf))).sum,
        (idxs.map (fun i =>
          kernel s.cell_size ((s.particles.getD i default).position - zf))).sum⟩) := by
  have hfold : picAccum s xf yf zf idxs =
      idxs.foldl (fun acc i =>
        (acc.1 + Vec3.memberwiseMul
            ⟨kernel s.cell_size ((s.particles.getD i default).position - xf),
             kernel s.cell_size ((s.particles.getD i default).position - yf),
             kernel s.cell_size ((s.particles.getD i default).position - zf)⟩
            (s.particles.getD i default).velocity,
         acc.2 + ⟨kernel s.cell_size ((s.particles.getD i default).position - xf),
            kernel s.cell_size ((s.particles.getD i default).position - yf),
            kernel s.cell_size ((s.particles.getD i default).position - zf)⟩))
        ((⟨0, 0, 0⟩ : Vec3), (⟨0, 0, 0⟩ : Vec3)) := rfl
  rw [hfold, foldl_accum_pair, vec3_zero_add, vec3_zero_add]
  rfl


/-- C7 amended: on a freshly hashed state, for every in-grid cell not marked
solid, the PIC particle-to-grid transfer sets each positive-face velocity to
`Σ K(p.pos - f_center)·v_p / Σ K(p.pos - f_center)` summed over the particles
whose owning cell lies in the (clamped) 3×3×3 block centered at the cell,
with the face midpoints as centers and the tent kernel `K`; a face whose
total weight is `≤ 1e-6` (not `< 1e-6`: the source tests `weight > 1e-6`) is
set to `0`. -/
theorem transfer_to_grid_pic_formula (s : SimState)
    (hx : 0 < s.grid.size.x) (hy : 0 < s.grid.size.y) (hz : 0 < s.grid.size.z)
    (hwf : s.grid.wf) (hsz : s.space_hash.size = s.grid.size)
    (c : Vec3s) (hc : inGrid s.grid.size c)
    (hsolid : ¬ ((s.grid.get c).cell_type = CellType.solid)) :
    ((transferToGridPic (hashParticles s)).grid.get c).velocities_posface =
      ⟨faceVelocityRule
          (specWeightedVelSum (hashParticles s) c
            (faceCenters s.cell_size s.grid_offset c).1 (fun p => p.velocity.x))
          (specWeightSum (hashParticles s) c (faceCenters s.cell_size s.grid_offset c).1),
        faceVelocityRule
          (specWeightedVelSum (hashParticles s) c
            (faceCenters s.cell_size s.grid_offset c).2.1 (fun p => p.velocity.y))
          (specWeightSum (hashParticles s) c (faceCenters s.cell_size s.grid_offset c).2.1),
        faceVelocityRule
          (specWeightedVelSum (hashParticles s) c
            (faceCenters s.cell_size s.grid_offset c).2.2 (fun p => p.velocity.z))
          (specWeightSum (hashParticles s) c
            (faceCenters s.cell_size s.grid_offset c).2.2)⟩ := by
  have hwf2 : (hashParticles s).grid.wf := hwf
  have hc2 : inGrid (hashParticles s).grid.size c := hc
  have hsolid2 : ¬ (((hashParticles s).grid.get c).cell_type = CellType.solid) := hsolid
  rw [transferToGridPic, FluidGrid.get_mapCells (hashParticles s).grid _ c hwf2 hc2]
  simp only []
  rw [if_neg hsolid2]
  simp only []
  rw [picAccum_eq_sums]
  simp only [Vec3.mk.injEq]
  refine ⟨?_, ?_, ?_⟩
  · exact congrArg₂ faceVelocityRule
      (nearby_sum_spec s hx hy hz hsz c
        (fun p => kernel (hashParticles s).cell_size
          (p.position - (faceCenters (hashParticles s).cell_size
            (hashParticles s).grid_offset c).1) * p.velocity.x))
      (nearby_sum_spec s hx hy hz hsz c
        (fun p => kernel (hashParticles s).cell_size
          (p.position - (faceCenters (hashParticles s).cell_size
            (hashParticles s).grid_offset c).1)))
  · exact congrArg₂ faceVelocityRule
      (nearby_sum_spec s hx hy hz hsz c
        (fun p => kernel (hashParticles s).cell_size
          (p.position - (faceCenters (hashParticles s).cell_size
            (hashParticles s).grid_offset c).2.1) * p.velocity.y))
      (nearby_sum_spec s hx hy hz hsz c
        (fun p => kernel (hashParticles s).cell_size
          (p.position - (faceCenters (hashParticles s).cell_size
            (hashParticles s).grid_offset c).2.1)))
  · exact congrArg₂ faceVelocityRule
      (nearby_sum_spec s hx hy hz hsz c
        (fun p => kernel (hashParticles s).cell_size
          (p.position - (faceCenters (hashParticles s).cell_size
            (hashParticles s).grid_offset c).2.2) * p.velocity.z))
      (nearby_sum_spec s hx hy hz hsz c
        (fun p => kernel (hashParticles s).cell_size
          (p.position - (faceCenters (hashParticles s).cell_size
            (hashParticles s).grid_offset c).2.2)))


/-- C7 counterexample to the claim as stated: at a state whose single
particle gives the +x face of cell `(0,0,0)` a total kernel weight of exactly
`1e-6`, the claim's rule ("0 only when the weight is < 1e-6, otherwise the
weighted average") yields `1`, but the transfer writes `0` (the source
requires `weight > 1e-6` for the average). -/
theorem pic_face_rule_at_exact_threshold :
    specWeightSum (hashParticles thresholdState) ⟨0, 0, 0⟩
        ((⟨1, 1/2, 1/2⟩ : Vec3)) = 1/1000000 ∧
    claimFaceRuleStrict
        (specWeightedVelSum (hashParticles thresholdState) ⟨0, 0, 0⟩
          ((⟨1, 1/2, 1/2⟩ : Vec3)) (fun p => p.velocity.x))
        (specWeightSum (hashParticles thresholdState) ⟨0, 0, 0⟩
          ((⟨1, 1/2, 1/2⟩ : Vec3))) = 1 ∧
    ((transferToGridPic (hashParticles thresholdState)).grid.get
        ⟨0, 0, 0⟩).velocities_posface.x = 0 ∧
    (0 : ℚ) ≠ 1 := by
  refine ⟨?_, ?_, ?_, ?_⟩
  · with_unfolding_all rfl
  · with_unfolding_all rfl
  · with_unfolding_all rfl
  · norm_num

/-- Witness for the amended C7 at the threshold state and cell `(0,0,0)`. -/
theorem transfer_to_grid_pic_formula_witness :
    ((transferToGridPic (hashParticles thresholdState)).grid.get
        ⟨0, 0, 0⟩).velocities_posface =
      ⟨faceVelocityRule
          (specWeightedVelSum (hashParticles thresholdState) ⟨0, 0, 0⟩
            (faceCenters thresholdState.cell_size thresholdState.grid_offset ⟨0, 0, 0⟩).1
            (fun p => p.velocity.x))
          (specWeightSum (hashParticles thresholdState) ⟨0, 0, 0⟩
            (faceCenters thresholdState.cell_size thresholdState.grid_offset ⟨0, 0, 0⟩).1),
        faceVelocityRule
          (specWeightedVelSum (hashParticles thresholdState) ⟨0, 0, 0⟩
            (faceCenters thresholdState.cell_size thresholdState.grid_offset ⟨0, 0, 0⟩).2.1
            (fun p => p.velocity.y))
          (specWeightSum (hashParticles thresholdState) ⟨0, 0, 0⟩
            (faceCenters thresholdState.cell_size thresholdState.grid_offset ⟨0, 0, 0⟩).2.1),
        faceVelocityRule
          (specWeightedVelSum (hashParticles thresholdState) ⟨0, 0, 0⟩
            (faceCenters thresholdState.cell_size thresholdState.grid_offset ⟨0, 0, 0⟩).2.2
            (fun p => p.velocity.z))
          (specWeightSum (hashParticles thresholdState) ⟨0, 0, 0⟩
            (faceCenters thresholdState.cell_size thresholdState.grid_offset
              ⟨0, 0, 0⟩).2.2)⟩ :=
  transfer_to_grid_pic_formula thresholdState (by decide) (by decide) (by decide)
    (by unfold FluidGrid.wf; with_unfolding_all decide) (by decide) ⟨0, 0, 0⟩ (by decide)
    (by with_unfolding_all decide)

end Fluid
